import Mathlib

/-!
# Verification of the boundary `event` package

Shallow embedding of the repository's observability/event code:

* `src/internal/observability/event/eventer.go` — the current `Eventer`
  (`NewEventer`, `writeAudit`, `writeObservation`, `writeError`,
  `FlushNodes`, `InitSysEventer`, `SysEventer`), embedded in namespace
  `BoundaryEvent`.
* `src/unnamed/part_000` — an earlier revision of the same package
  (`NewEventer`, `Audit`, `Info`, `Error`), embedded in namespace
  `BoundaryEvent.P0`.

The external `github.com/hashicorp/eventlogger` broker is a collaborator
specified only at its interface boundary (spec section 2 and 4.2): the model
records node registrations, pipeline registrations and success thresholds.
Node and pipeline ids come from `newId`, which is not under `src/` and per
spec section 4.1 produces process-unique ids; it is modelled as a monotone
`Nat` counter, so library-side duplicate-id registration failures cannot
occur and are not modelled.
-/

namespace BoundaryEvent

/-- Event types. The Go `Type` is a string enumeration defined outside
`src/`; the values used by the two files in `src/` are Every, Error, Audit,
Observation, System (eventer.go) and Every, Error, Audit, Info (part_000).
The spec calls Observation "a.k.a. Info", but the two constants are distinct
strings, hence distinct constructors here. -/
inductive EvType
  | every
  | error
  | audit
  | observation
  | system
  | info
deriving DecidableEq, Repr

/-- `OpField` in an event (eventer.go line 17). -/
def OpField : String := "op"

/-- `RequestInfoField` in an event (eventer.go line 18). -/
def RequestInfoField : String := "request_info"

/-- `VersionField` in an event (eventer.go line 19). -/
def VersionField : String := "version"

/-- part_000: `JSONSinkFormat SinkFormat = "json"`. -/
def JSONSinkFormat : String := "json"

/-- part_000: `FileSink SinkType = "file"`. -/
def FileSink : String := "file"

/-- `StderrSink` is referenced by eventer.go but defined outside `src/`;
its concrete string value is irrelevant, only its identity is used in the
`switch s.SinkType` dispatch. -/
def StderrSink : String := "stderr"

/-- part_000: `Enforced DeliveryGuarantee = "enforced"`. -/
def Enforced : String := "enforced"

/-- part_000: `BestEffort DeliveryGuarantee = "best-effort"`. -/
def BestEffort : String := "best-effort"

/-- `SinkConfig` as defined in part_000 (the same shape is consumed by
eventer.go). `time.Duration` and the integer rotation parameters are `Int`. -/
structure SinkConfig where
  name : String
  eventTypes : List EvType
  sinkType : String
  format : String
  path : String
  fileName : String
  rotateBytes : Int
  rotateDuration : Int
  rotateMaxFiles : Int
deriving DecidableEq, Repr

/-- The zero value of `SinkConfig` (Go zero-valued struct). -/
def emptySinkConfig : SinkConfig := ⟨"", [], "", "", "", "", 0, 0, 0⟩

/-- `EventerConfig` is referenced by eventer.go but defined outside `src/`.
Modelled from the spec (section 3, "Eventer configuration": enable/disable
flag per type plus a list of sink configurations) and from the fields
eventer.go reads: `AuditEnabled`, `ObservationsEnabled`, `SysEventsEnabled`,
`Sinks`. -/
structure EventerConfig where
  auditEnabled : Bool
  observationsEnabled : Bool
  sysEventsEnabled : Bool
  sinks : List SinkConfig
deriving DecidableEq, Repr

/-- Eventlogger node variants registered by the two constructors:
the shared `eventlogger.JSONFormatter`, a `writer.Sink` over the serialized
stderr stream, an `eventlogger.FileSink`, and a `gated.Filter`. -/
inductive Node
  | jsonFormatter
  | stderrSink (format : String)
  | fileSink (format : String) (path : String) (fileName : String)
      (maxBytes : Int) (maxDuration : Int) (maxFiles : Int)
  | gatedFilter
deriving DecidableEq, Repr

/-- A node is a sink node (`writer.Sink` over stderr or `eventlogger.FileSink`). -/
def Node.isSink : Node → Bool
  | .stderrSink _ => true
  | .fileSink _ _ _ _ _ _ => true
  | _ => false

/-- `eventlogger.Pipeline` as registered by the constructors: an event type,
a pipeline id and the ordered node-id chain. -/
structure Pipeline where
  eventType : EvType
  pipelineId : String
  nodeIds : List Nat
deriving DecidableEq, Repr

/-- The broker, modelled at its interface boundary as the record of
registrations made through `RegisterNode`, `RegisterPipeline` and
`SetSuccessThreshold`. -/
structure Broker where
  nodes : List (Nat × Node)
  pipelines : List Pipeline
  thresholds : List (EvType × Nat)
deriving DecidableEq, Repr

/-- Success-threshold lookup in the order thresholds were set (first match). -/
def lookupThreshold (t : EvType) : List (EvType × Nat) → Option Nat
  | [] => none
  | (a, n) :: rest => if a = t then some n else lookupThreshold t rest

/-- `pipeline` struct of eventer.go (lines 61-67): the per-sink bookkeeping
record built while walking `c.Sinks`. `gateId` is its Go zero value (`none`)
until phase 2 sets it on a loop-local copy. -/
structure PipelineRec where
  eventType : EvType
  fmtId : Nat
  sinkId : Nat
  gateId : Option Nat
  sinkConfig : SinkConfig
deriving DecidableEq, Repr

/-- The `Eventer` struct of eventer.go. `flushableNodes` holds the ids of
the registered `gated.Filter` nodes (in Go, pointers to them). -/
structure EventerM where
  broker : Broker
  flushableNodes : List Nat
  conf : EventerConfig
  auditPipelines : List PipelineRec
  observationPipelines : List PipelineRec
  errPipelines : List PipelineRec
deriving DecidableEq, Repr

/-- `true` iff the `Except` value is an `error`. -/
def isErrorE {ε α : Type} : Except ε α → Bool
  | .error _ => true
  | .ok _ => false

/-- `true` iff the `Except` value is an `ok`. -/
def isOkE {ε α : Type} : Except ε α → Bool
  | .error _ => false
  | .ok _ => true

/-- Outcome of one `Broker.Send` attempt, as classified by the retry wrapper
(spec section 4.4): success, a retryable (transient) delivery failure, or a
non-retryable failure that propagates immediately. -/
inductive SendOutcome
  | success
  | transientFailure (msg : String)
  | fatalFailure (msg : String)
deriving DecidableEq, Repr

/-- Modelled from the spec (section 4.4): `retrySend` is not under `src/`
(only its call sites are). It invokes the send closure up to `fuel` times,
retrying on transient failure and returning the last error on exhaustion;
backoff sleeping is elided. `outcome i` is the environment's result of the
`i`-th `Broker.Send`; `step` is the closure body: it updates the event state
and yields the payload handed to `Broker.Send` on that attempt. Returns the
overall result, the final event state, and the list of payloads sent, one
per `Broker.Send` invocation actually made. -/
def retryLoop {σ π : Type} (outcome : Nat → SendOutcome) (step : σ → σ × π) :
    Nat → Nat → σ → Except String Unit × σ × List π
  | 0, _, s => (.error "retrySend: no attempts", s, [])
  | fuel + 1, i, s =>
    let sp := step s
    match outcome i, fuel with
    | .success, _ => (.ok (), sp.1, [sp.2])
    | .fatalFailure m, _ => (.error m, sp.1, [sp.2])
    | .transientFailure m, 0 => (.error m, sp.1, [sp.2])
    | .transientFailure _, f + 1 =>
      let r := retryLoop outcome step (f + 1) (i + 1) sp.1
      (r.1, r.2.1, sp.2 :: r.2.2)

/-- Prefix an `Except.error` with the wrapping operation name, as
`fmt.Errorf("%s: %w", op, err)` does in the write methods. -/
def wrapErr (op : String) : Except String Unit → Except String Unit
  | .error m => .error (op ++ ": " ++ m)
  | .ok _ => .ok ()

/-- The `observation` event consumed by `writeObservation`. The type is not
under `src/`; modelled from the spec (section 4.5: observation events stamp
two header fields and one detail field into the payload) and from the fields
eventer.go reads: `Header`, `Detail`, `RequestInfo`, `Version`, `Op`,
`Payload`. Maps are assoc lists with first-match lookup; `none` is a nil Go
map. -/
structure Observation where
  requestInfo : String
  version : String
  op : String
  header : Option (List (String × String))
  detail : Option (List (String × String))
deriving DecidableEq, Repr

/-- Go map assignment `m[k] = v`: assoc-list cons with first-match lookup. -/
def mapSet (m : List (String × String)) (k v : String) : List (String × String) :=
  (k, v) :: m

/-- First-match assoc-list lookup, the read side of `mapSet`. -/
def lookupS (k : String) : List (String × String) → Option String
  | [] => none
  | (a, v) :: rest => if a = k then some v else lookupS k rest

/-- The stamping performed inside the closure of `writeObservation`
(eventer.go lines 416-422): if the header map is non-nil, set
`RequestInfoField` and `VersionField`; if the detail map is non-nil, set
`OpField`. -/
def stampObservation (o : Observation) : Observation :=
  { o with
    header := match o.header with
      | some h => some (mapSet (mapSet h RequestInfoField o.requestInfo) VersionField o.version)
      | none => none,
    detail := match o.detail with
      | some d => some (mapSet d OpField o.op)
      | none => none }

/-- Modelled from the spec: the `Payload` field of an `observation` (not
under `src/`) shares the event's header and detail maps, which is why the
stamping is visible in the payload handed to `Broker.Send`. -/
def Observation.payload (o : Observation) :
    Option (List (String × String)) × Option (List (String × String)) :=
  (o.header, o.detail)

/-- The closure passed to `retrySend` by `writeObservation`: stamp the
event, then hand `event.Payload` to `Broker.Send`. -/
def obsStep (o : Observation) :
    Observation × (Option (List (String × String)) × Option (List (String × String))) :=
  (stampObservation o, (stampObservation o).payload)

/-- `writeObservation` (eventer.go lines 407-430). `retries` stands for
`stdRetryCount`, whose value is not under `src/`. Returns the result and,
per `Broker.Send` invocation actually made, the event type and payload
handed to it. -/
def writeObservation (e : EventerM) (event : Option Observation) (retries : Nat)
    (outcome : Nat → SendOutcome) :
    Except String Unit ×
      List (EvType × (Option (List (String × String)) × Option (List (String × String)))) :=
  match event with
  | none => (.error "event.(Eventer).writeObservation: missing event", [])
  | some o =>
    if !e.conf.observationsEnabled then (.ok (), [])
    else
      let r := retryLoop outcome obsStep retries 0 o
      (wrapErr "event.(Eventer).writeObservation" r.1,
        r.2.2.map (fun p => (EvType.observation, p)))

/-- `writeError` (eventer.go lines 433-446): no enabled flag; every attempt
sends with `ErrorType`. The error event's content is opaque to the claims,
so only the event type of each `Broker.Send` is recorded. -/
def writeError (e : EventerM) (event : Option Unit) (retries : Nat)
    (outcome : Nat → SendOutcome) : Except String Unit × List EvType :=
  match event, e with
  | none, _ => (.error "event.(Eventer).writeError: missing event", [])
  | some _, _ =>
    let r := retryLoop outcome (fun u => (u, EvType.error)) retries 0 ()
    (wrapErr "event.(Eventer).writeError" r.1, r.2.2)

/-- `writeAudit` (eventer.go lines 465-481): nil-event check, then the
`AuditEnabled` gate, then retried sends with `AuditType`. -/
def writeAudit (e : EventerM) (event : Option Unit) (retries : Nat)
    (outcome : Nat → SendOutcome) : Except String Unit × List EvType :=
  match event with
  | none => (.error "event.(Eventer).writeAudit: missing event", [])
  | some _ =>
    if !e.conf.auditEnabled then (.ok (), [])
    else
      let r := retryLoop outcome (fun u => (u, EvType.audit)) retries 0 ()
      (wrapErr "event.(Eventer).writeAudit" r.1, r.2.2)

/-- `FlushNodes` (eventer.go lines 494-502) over an explicit node list:
call `FlushAll` on each node in order; on the first error, wrap and return
it immediately. `flush n` is node `n`'s `FlushAll` outcome (`some msg` is an
error). Also returns the list of nodes whose `FlushAll` was invoked. -/
def flushNodesList (flush : Nat → Option String) : List Nat → Except String Unit × List Nat
  | [] => (.ok (), [])
  | n :: rest =>
    match flush n with
    | some m => (.error ("event.(Eventer).FlushNodes: " ++ m), [n])
    | none =>
      let r := flushNodesList flush rest
      (r.1, n :: r.2)

/-- `FlushNodes` on an `Eventer`: iterate over `e.flushableNodes`. -/
def FlushNodes (e : EventerM) (flush : Nat → Option String) :
    Except String Unit × List Nat :=
  flushNodesList flush e.flushableNodes

/-- `DefaultSink` (eventer.go lines 397-404): a stderr sink named
"default", subscribed to every event type, JSON format. The unset fields
are Go zero values. -/
def DefaultSink : SinkConfig :=
  { name := "default"
    eventTypes := [.every]
    sinkType := StderrSink
    format := JSONSinkFormat
    path := ""
    fileName := ""
    rotateBytes := 0
    rotateDuration := 0
    rotateMaxFiles := 0 }

/-- Modelled from the spec: `EventerConfig.Validate` is not under `src/`.
Spec section 3: "Configuration is validated once at construction; invalid
configuration is a fatal error"; section 6: format is currently only the
structured (JSON) serialization format, destination is console or rotating
file (file destinations need a filename). A sink is valid when its format
is JSON and it is either a stderr sink or a file sink with a filename. -/
def SinkConfig.validB (s : SinkConfig) : Bool :=
  s.format = JSONSinkFormat &&
    (s.sinkType = StderrSink || (s.sinkType = FileSink && !(s.fileName = "")))

/-- Modelled from the spec: `c.Validate()` validates every sink. -/
def EventerConfig.Validate (c : EventerConfig) : Except String Unit :=
  if c.sinks.all SinkConfig.validB then .ok ()
  else .error "event.NewEventer: invalid configuration"

/-- Whether sink `s` subscribes to event type `t`: the flag loop of
eventer.go lines 227-244 (and part_000 lines 107-121) sets the flag for `t`
when some listed type is `EveryType` or `t` itself. -/
def wants (s : SinkConfig) (t : EvType) : Bool :=
  s.eventTypes.any (fun x => x = .every || x = t)

/-- Mutable state threaded through `NewEventer`: the broker's registration
record, the `newId` counter, the `allSinkFilenames` set (its keys), and the
`flushableNodes` list. -/
structure Build where
  nodes : List (Nat × Node)
  pipes : List Pipeline
  thresholds : List (EvType × Nat)
  ctr : Nat
  seen : List String
  flush : List Nat
deriving DecidableEq, Repr

/-- The four pipeline-record lists accumulated over `c.Sinks`
(eventer.go line 147: `auditPipelines, observationPipelines, errPipelines,
sysPipelines`). -/
structure SinkLists where
  audit : List PipelineRec
  obs : List PipelineRec
  err : List PipelineRec
  sys : List PipelineRec
deriving DecidableEq, Repr

/-- One iteration of the sink loop of eventer.go (lines 191-276), node
part: for a stderr sink, build a `writer.Sink` over the serialized stderr
stream; otherwise consult `allSinkFilenames` for `s.Path+s.FileName` (the
map is never written anywhere in the function, so the duplicate branch
checks an ever-empty set) and build an `eventlogger.FileSink`. Register the
node under a fresh id. -/
def registerSinkNode (st : Build) (s : SinkConfig) : Except String Build :=
  if s.sinkType = StderrSink then
    .ok { st with nodes := st.nodes ++ [(st.ctr, Node.stderrSink s.format)],
                  ctr := st.ctr + 1 }
  else
    if (s.path ++ s.fileName) ∈ st.seen then
      .error ("event.NewEventer: duplicate file sink: " ++ s.path ++ " " ++ s.fileName)
    else
      let nd := Node.fileSink s.format s.path s.fileName
        s.rotateBytes s.rotateDuration s.rotateMaxFiles
      .ok { st with nodes := st.nodes ++ [(st.ctr, nd)], ctr := st.ctr + 1 }

/-- The sink loop of eventer.go (lines 191-276): register each sink node
and append a `pipeline` record to each list whose event type the sink
subscribes to. `fmtId` is `jsonfmtId`. The sys record leaves `sinkConfig`
zero-valued, as the source does. -/
def processSinks (fmtId : Nat) : List SinkConfig → Build → SinkLists →
    Except String (Build × SinkLists)
  | [], st, ls => .ok (st, ls)
  | s :: rest, st, ls =>
    match registerSinkNode st s with
    | .error m => .error m
    | .ok st' =>
      processSinks fmtId rest st'
        { audit := ls.audit ++
            (if wants s .audit then [⟨.audit, fmtId, st.ctr, none, s⟩] else [])
          obs := ls.obs ++
            (if wants s .observation then [⟨.observation, fmtId, st.ctr, none, s⟩] else [])
          err := ls.err ++
            (if wants s .error then [⟨.error, fmtId, st.ctr, none, s⟩] else [])
          sys := ls.sys ++
            (if wants s .system then [⟨.system, fmtId, st.ctr, none, emptySinkConfig⟩] else []) }

/-- Phase 2 of `NewEventer` for audit and observation records (eventer.go
lines 287-341): per record, build a fresh `gated.Filter`, append it to
`flushableNodes`, register it under a fresh id, and register a pipeline
whose node chain is gate, formatter, sink. -/
def gatedPhase : List PipelineRec → Build → Build
  | [], st => st
  | p :: rest, st =>
    gatedPhase rest
      { st with
        nodes := st.nodes ++ [(st.ctr, Node.gatedFilter)]
        flush := st.flush ++ [st.ctr]
        pipes := st.pipes ++
          [⟨p.eventType, toString (st.ctr + 1), [st.ctr, p.fmtId, p.sinkId]⟩]
        ctr := st.ctr + 2 }

/-- Phase 2 of `NewEventer` for error and system records (eventer.go lines
342-373): per record, register a pipeline whose node chain is formatter,
sink, and collect the record's sink id (`errNodeIds` / `sysNodeIds`). -/
def plainPhase : List PipelineRec → Build → Build × List Nat
  | [], st => (st, [])
  | p :: rest, st =>
    let r := plainPhase rest
      { st with
        pipes := st.pipes ++ [⟨p.eventType, toString st.ctr, [p.fmtId, p.sinkId]⟩]
        ctr := st.ctr + 1 }
    (r.1, p.sinkId :: r.2)

/-- `SetSuccessThreshold` recorded on the build state. -/
def setThreshold (st : Build) (t : EvType) (n : Nat) : Build :=
  { st with thresholds := st.thresholds ++ [(t, n)] }

/-- Defaulting of eventer.go lines 137-141: with no sinks configured,
append the single `DefaultSink`. -/
def defaulted (c : EventerConfig) : EventerConfig :=
  if c.sinks.isEmpty then { c with sinks := c.sinks ++ [DefaultSink] } else c

/-- The build state right after registering the shared `JSONFormatter`
under `jsonfmtId` (= id 0, the first generated id). -/
def buildInit : Build := ⟨[(0, Node.jsonFormatter)], [], [], 1, [], []⟩

/-- Phase 2 of `NewEventer` (eventer.go lines 287-385) given the sink-loop
output: gate-wire the audit records, then the observation records, register
the plain error and system pipelines, set the Error success threshold to
`len(errNodeIds)`, and assemble the `Eventer` value. -/
def finish (st1 : Build) (ls : SinkLists) (c : EventerConfig) : EventerM :=
  let st2 := gatedPhase ls.audit st1
  let st3 := gatedPhase ls.obs st2
  let r4 := plainPhase ls.err st3
  let r5 := plainPhase ls.sys r4.1
  let st6 := setThreshold r5.1 .error r4.2.length
  ⟨⟨st6.nodes, st6.pipes, st6.thresholds⟩, st6.flush, c, ls.audit, ls.obs, ls.err⟩

/-- The enabled-but-no-sink checks of eventer.go lines 277-285 followed by
phase 2: on each enabled type with an empty pipeline list, fail; otherwise
finish the build. -/
def checksAndFinish (c : EventerConfig) (st1 : Build) (ls : SinkLists) :
    Except String EventerM :=
  if c.auditEnabled && ls.audit.isEmpty then
    .error "event.NewEventer: audit events enabled but no sink defined for it"
  else if c.observationsEnabled && ls.obs.isEmpty then
    .error "event.NewEventer: observation events enabled but no sink defined for it"
  else if c.sysEventsEnabled && ls.sys.isEmpty then
    .error "event.NewEventer: system events enabled but no sink defined for it"
  else
    .ok (finish st1 ls c)

/-- `NewEventer` (eventer.go lines 128-386). `hasLog` and `hasLock` model
the non-nilness of the `hclog.Logger` and `*sync.Mutex` arguments. The
`WithBroker` / `WithNow` options and `newId`'s randomness failure are not
modelled (the former substitute test collaborators, the latter is fatal
randomness loss, spec section 4.1). Ids are assigned from a counter:
`jsonfmtId` is 0. -/
def NewEventer (hasLog : Bool) (hasLock : Bool) (c : EventerConfig) :
    Except String EventerM :=
  if !hasLog then .error "event.NewEventer: missing logger"
  else if !hasLock then .error "event.NewEventer: missing serialization lock"
  else
    let c := defaulted c
    match c.Validate with
    | .error m => .error m
    | .ok _ =>
      match processSinks 0 c.sinks buildInit ⟨[], [], [], []⟩ with
      | .error m => .error m
      | .ok (st1, ls) => checksAndFinish c st1 ls

/-- `InitSysEventer` (eventer.go lines 82-116) with the singleton as
explicit state `st`: validate the logger, the serialization lock, and the
exactly-one-of `WithEventer`/`WithEventerConfig` options before touching
the singleton; only on success install the new eventer. Returns the call's
result and the new singleton state. -/
def InitSysEventer (st : Option EventerM) (hasLog : Bool) (hasLock : Bool)
    (withEventer : Option EventerM) (withEventerConfig : Option EventerConfig) :
    Except String Unit × Option EventerM :=
  if !hasLog then (.error "event.InitSysEventer: missing hclog", st)
  else if !hasLock then (.error "event.InitSysEventer: missing serialization lock", st)
  else
    match withEventer, withEventerConfig with
    | none, none => (.error "event.InitSysEventer: missing both eventer and eventer config", st)
    | some _, some _ => (.error "event.InitSysEventer: both eventer and eventer config provided", st)
    | none, some cfg =>
      match NewEventer hasLog hasLock cfg with
      | .error m => (.error ("event.InitSysEventer: " ++ m), st)
      | .ok e => (.ok (), some e)
    | some e, none => (.ok (), some e)

/-- `SysEventer` (eventer.go lines 120-124): read the singleton state. -/
def SysEventer (st : Option EventerM) : Option EventerM := st

/-- Extract the eventer from a successful construction (zero value on
error); used to evaluate the models at concrete inputs. -/
def okOf (r : Except String EventerM) : EventerM :=
  match r with
  | .ok e => e
  | .error _ => ⟨⟨[], [], []⟩, [], ⟨false, false, false, []⟩, [], [], []⟩

end BoundaryEvent

namespace BoundaryEvent.P0

/-- part_000 `Config` (lines 47-53): delivery-guarantee strings for audit
and info, the two enabled flags and the sinks. -/
structure Config where
  auditDelivery : String
  infoDelivery : String
  auditEnabled : Bool
  infoEnabled : Bool
  sinks : List SinkConfig
deriving DecidableEq, Repr

/-- part_000 `Eventer` (lines 28-33): broker plus configuration. -/
structure Eventer where
  broker : Broker
  conf : Config
deriving DecidableEq, Repr

/-- The default sink part_000's `NewEventer` appends when the configuration
lists none (lines 78-86): a FILE sink with path "./" and filename
"foo.txt" (`SinkType` is left at its zero value). -/
def defaultSink : SinkConfig :=
  { name := "default"
    eventTypes := [.every]
    sinkType := ""
    format := JSONSinkFormat
    path := "./"
    fileName := "foo.txt"
    rotateBytes := 0
    rotateDuration := 0
    rotateMaxFiles := 0 }

/-- The sink loop of part_000 `NewEventer` (lines 88-131): every sink is
registered as an `eventlogger.FileSink` (there is no stderr branch and no
duplicate check), and the sink's fresh node id is appended to the node-id
list of each event type it subscribes to (audit, info, error; the loop has
no system case). -/
def processSinks : List SinkConfig → Build → List Nat → List Nat → List Nat →
    Build × List Nat × List Nat × List Nat
  | [], st, a, i, er => (st, a, i, er)
  | s :: rest, st, a, i, er =>
    let nd := Node.fileSink s.format s.path s.fileName
      s.rotateBytes s.rotateDuration s.rotateMaxFiles
    processSinks rest
      { st with nodes := st.nodes ++ [(st.ctr, nd)], ctr := st.ctr + 1 }
      (a ++ if wants s .audit then [st.ctr] else [])
      (i ++ if wants s .info then [st.ctr] else [])
      (er ++ if wants s .error then [st.ctr] else [])

/-- Defaulting of part_000 lines 78-86: with no sinks configured, append
the single default FILE sink. -/
def defaulted (c : Config) : Config :=
  if c.sinks.isEmpty then { c with sinks := c.sinks ++ [defaultSink] } else c

/-- The successful body of part_000 `NewEventer` on an already-defaulted
configuration: register the shared JSON formatter (id 0) and SEED ALL THREE
node-id lists with its id (lines 74-76); walk the sinks; register one
pipeline per event type whose node chain is the whole accumulated id list
(formatter first, then every subscribed sink — no gate nodes exist in this
revision); then set success thresholds: audit and info only when their
delivery guarantee is `Enforced`, error always, each to the length of the
corresponding node-id list (formatter included). -/
def mkEventer (c : Config) : Eventer :=
  let st0 : Build := ⟨[(0, Node.jsonFormatter)], [], [], 1, [], []⟩
  let r := processSinks c.sinks st0 [0] [0] [0]
  let pipes : List Pipeline :=
    [⟨.audit, "audit-pipeline", r.2.1⟩,
     ⟨.info, "info-pipeline", r.2.2.1⟩,
     ⟨.error, "err-pipeline", r.2.2.2⟩]
  let thresholds : List (EvType × Nat) :=
    (if c.auditDelivery = Enforced then [(.audit, r.2.1.length)] else []) ++
    (if c.infoDelivery = Enforced then [(.info, r.2.2.1.length)] else []) ++
    [(.error, r.2.2.2.length)]
  ⟨⟨r.1.nodes, pipes, thresholds⟩, c⟩

/-- part_000 `NewEventer` (lines 55-189): check the logger, default the
sink list, then build. -/
def NewEventer (hasLog : Bool) (c : Config) : Except String Eventer :=
  if !hasLog then .error "event.NewEventer: missing logger"
  else .ok (mkEventer (P0.defaulted c))

/-- part_000 `Audit` (lines 220-234): if `AuditEnabled`, a single
un-retried `broker.Send` — with `InfoType`, not `AuditType`. `outcome` is
the environment's result of that send; the returned list records the event
type of each `Broker.Send` made. -/
def Audit (conf : Config) (outcome : Except String Unit) :
    Except String Unit × List EvType :=
  if !conf.auditEnabled then (.ok (), [])
  else
    match outcome with
    | .error m => (.error ("event.(Eventer).Audit: " ++ m), [EvType.info])
    | .ok _ => (.ok (), [EvType.info])

/-- part_000 `Info` (lines 191-205): if `InfoEnabled`, a single
`broker.Send` with `InfoType`. -/
def Info (conf : Config) (outcome : Except String Unit) :
    Except String Unit × List EvType :=
  if !conf.infoEnabled then (.ok (), [])
  else
    match outcome with
    | .error m => (.error ("event.(Eventer).Info: " ++ m), [EvType.info])
    | .ok _ => (.ok (), [EvType.info])

/-- part_000 `Error` (lines 207-218): unconditionally a single
`broker.Send` with `ErrorType`. -/
def Error (outcome : Except String Unit) : Except String Unit × List EvType :=
  match outcome with
  | .error m => (.error ("event.(Eventer).Error: " ++ m), [EvType.error])
  | .ok _ => (.ok (), [EvType.error])

/-- Extract the part_000 eventer from a successful construction. -/
def okOf (r : Except String Eventer) : Eventer :=
  match r with
  | .ok e => e
  | .error _ => ⟨⟨[], [], []⟩, ⟨"", "", false, false, []⟩⟩

end BoundaryEvent.P0

namespace BoundaryEvent

/-- Lookup of a key in a payload's header map (`none` when the map is nil). -/
def headerLookup (k : String)
    (p : Option (List (String × String)) × Option (List (String × String))) :
    Option String :=
  match p.1 with
  | some h => lookupS k h
  | none => none

/-- Lookup of a key in a payload's detail map (`none` when the map is nil). -/
def detailLookup (k : String)
    (p : Option (List (String × String)) × Option (List (String × String))) :
    Option String :=
  match p.2 with
  | some d => lookupS k d
  | none => none

/-- A payload reflects the stamped fields: header and detail maps are
non-nil, the header holds `request_info` and `version`, the detail holds
`op`, with the given values. -/
def PayloadStamped (ri v op : String)
    (p : Option (List (String × String)) × Option (List (String × String))) :
    Prop :=
  p.1.isSome = true ∧ p.2.isSome = true ∧
  headerLookup RequestInfoField p = some ri ∧
  headerLookup VersionField p = some v ∧
  detailLookup OpField p = some op

/-- An observation whose scalar fields are `ri`, `v`, `op` and whose header
and detail maps are non-nil. -/
def ObsGood (ri v op : String) (o : Observation) : Prop :=
  o.requestInfo = ri ∧ o.version = v ∧ o.op = op ∧
  o.header.isSome = true ∧ o.detail.isSome = true

/-- Concrete helpers for witnesses and counterexamples. `allOk`: every send
succeeds; `outTS`: the first send fails transiently, later ones succeed. -/
def allOk : Nat → SendOutcome := fun _ => SendOutcome.success

def outTS : Nat → SendOutcome :=
  fun i => if i = 0 then SendOutcome.transientFailure "t" else SendOutcome.success

/-- An eventer built with all per-type flags off and the default sink. -/
def eAllOff : EventerM := okOf (NewEventer true true ⟨false, false, false, []⟩)

/-- An eventer built with all per-type flags on and the default sink. -/
def eAllOn : EventerM := okOf (NewEventer true true ⟨true, true, true, []⟩)

/-- A concrete observation with non-nil header and detail maps. -/
def oW : Observation := ⟨"ri1", "v1", "op1", some [], some []⟩

/-- A `FlushAll` environment in which exactly node 2 fails. -/
def flushBoom : Nat → Option String := fun n => if n = 2 then some "boom" else none

/-- The first payload `writeObservation` sends for `oW` under `outTS`
(transient failure then success: two sends). -/
def pW : EvType × (Option (List (String × String)) × Option (List (String × String))) :=
  (EvType.observation,
    (some [(VersionField, "v1"), (RequestInfoField, "ri1")], some [(OpField, "op1")]))

/-- part_000 configuration with auditing enabled and no sinks (the default
sink is installed at construction). -/
def p0On : P0.Config := ⟨"", "", true, true, []⟩

/-- A file sink configuration entry, listed twice in `cfgDup` with an
identical path and an identical filename. -/
def dupFileSink : SinkConfig :=
  ⟨"dup", [.every], FileSink, JSONSinkFormat, "/var/log/boundary", "audit.log", 0, 0, 0⟩

/-- A configuration with two file sinks targeting the same path+filename. -/
def cfgDup : EventerConfig := ⟨true, true, true, [dupFileSink, dupFileSink]⟩

/-- A second file sink with the same path but a different filename. -/
def otherFileSink : SinkConfig :=
  ⟨"oth", [.every], FileSink, JSONSinkFormat, "/var/log/boundary", "other.log", 0, 0, 0⟩

/-- Same path, pairwise distinct filenames. -/
def cfgDistinct : EventerConfig := ⟨true, true, true, [dupFileSink, otherFileSink]⟩

/-- part_000 configuration with a single sink subscribed to Error only. -/
def p0OneErr : P0.Config :=
  ⟨"", "", false, false,
   [⟨"e1", [.error], FileSink, JSONSinkFormat, "/l", "e.log", 0, 0, 0⟩]⟩

/-- part_000 configuration with audit delivery enforced and info delivery
best-effort, no sinks (defaulted). -/
def p0Enf : P0.Config := ⟨Enforced, BestEffort, true, true, []⟩

/-- The properties an audit/observation pipeline registered by eventer.go's
`NewEventer` has: a node chain of exactly a gate, the shared formatter
(id 0) and a sink — the gate id is bound only to a `gated.Filter`, id 0
only to the `JSONFormatter`, the sink id only to sink nodes — and the gate
is among the eventer's flushable nodes. -/
def GatedShape (b : Broker) (flushL : List Nat) (q : Pipeline) : Prop :=
  ∃ g s, q.nodeIds = [g, 0, s] ∧
    (g, Node.gatedFilter) ∈ b.nodes ∧
    (∀ nd, (g, nd) ∈ b.nodes → nd = Node.gatedFilter) ∧
    (0, Node.jsonFormatter) ∈ b.nodes ∧
    (∀ nd, (0, nd) ∈ b.nodes → nd = Node.jsonFormatter) ∧
    (∃ nd, (s, nd) ∈ b.nodes ∧ nd.isSink = true) ∧
    (∀ nd, (s, nd) ∈ b.nodes → nd.isSink = true) ∧
    g ∈ flushL

/-- The properties an error/system pipeline registered by eventer.go's
`NewEventer` has: a node chain of exactly the shared formatter (id 0) and a
sink, with no gate node anywhere in the chain. -/
def PlainShape (b : Broker) (q : Pipeline) : Prop :=
  ∃ s, q.nodeIds = [0, s] ∧
    (0, Node.jsonFormatter) ∈ b.nodes ∧
    (∀ nd, (0, nd) ∈ b.nodes → nd = Node.jsonFormatter) ∧
    (∃ nd, (s, nd) ∈ b.nodes ∧ nd.isSink = true) ∧
    (∀ nd, (s, nd) ∈ b.nodes → nd.isSink = true)

/-- The facts holding of every `pipeline` record appended for event type
`t` by the sink loop run from state `st` to state `st'`. -/
def RecOk (f : Nat) (st st' : Build) (t : EvType) (rec : PipelineRec) : Prop :=
  rec.eventType = t ∧ rec.fmtId = f ∧ st.ctr ≤ rec.sinkId ∧ rec.sinkId < st'.ctr ∧
  ∃ nd, (rec.sinkId, nd) ∈ st'.nodes ∧ nd.isSink = true

end BoundaryEvent

namespace BoundaryEvent

theorem flushNodesList_all_ok (flush : Nat → Option String) (l : List Nat)
    (h : ∀ n ∈ l, flush n = none) : flushNodesList flush l = (.ok (), l) := by
  induction l with
  | nil => rfl
  | cons n rest ih =>
    simp only [flushNodesList]
    rw [h n (by simp)]
    simp [ih (fun m hm => h m (by simp [hm]))]

theorem flushNodesList_first_error (flush : Nat → Option String) (l₁ : List Nat)
    (n : Nat) (m : String) (l₂ : List Nat)
    (h₁ : ∀ x ∈ l₁, flush x = none) (hn : flush n = some m) :
    flushNodesList flush (l₁ ++ n :: l₂) =
      (.error ("event.(Eventer).FlushNodes: " ++ m), l₁ ++ [n]) := by
  induction l₁ with
  | nil =>
    simp only [List.nil_append, flushNodesList]
    rw [hn]
  | cons a rest ih =>
    simp only [List.cons_append, flushNodesList]
    rw [h₁ a (by simp)]
    simp [ih (fun x hx => h₁ x (by simp [hx]))]

theorem retryLoop_zero {σ π : Type} (outcome : Nat → SendOutcome) (step : σ → σ × π)
    (i : Nat) (s : σ) :
    retryLoop outcome step 0 i s = (.error "retrySend: no attempts", s, []) := rfl

theorem retryLoop_succ {σ π : Type} (outcome : Nat → SendOutcome) (step : σ → σ × π)
    (fuel i : Nat) (s : σ) :
    retryLoop outcome step (fuel + 1) i s =
      match outcome i, fuel with
      | .success, _ => (.ok (), (step s).1, [(step s).2])
      | .fatalFailure m, _ => (.error m, (step s).1, [(step s).2])
      | .transientFailure m, 0 => (.error m, (step s).1, [(step s).2])
      | .transientFailure _, f + 1 =>
        let r := retryLoop outcome step (f + 1) (i + 1) (step s).1
        (r.1, r.2.1, (step s).2 :: r.2.2) := by
  rw [retryLoop.eq_def]

theorem retryLoop_log_ne_nil {σ π : Type} (outcome : Nat → SendOutcome) (step : σ → σ × π)
    (fuel i : Nat) (s : σ) (h : 1 ≤ fuel) :
    (retryLoop outcome step fuel i s).2.2 ≠ [] := by
  match fuel, h with
  | fuel + 1, _ =>
    rw [retryLoop_succ]
    cases houtcome : outcome i <;> cases fuel <;> simp

theorem retryLoop_log_const {σ : Type} (outcome : Nat → SendOutcome) (t : EvType)
    (fuel : Nat) : ∀ (i : Nat) (s : σ),
    ∀ x ∈ (retryLoop outcome (fun u => (u, t)) fuel i s).2.2, x = t := by
  induction fuel with
  | zero => intro i s x hx; rw [retryLoop_zero] at hx; simp at hx
  | succ f ih =>
    intro i s x hx
    rw [retryLoop_succ] at hx
    cases houtcome : outcome i <;> rw [houtcome] at hx
    · simp at hx; exact hx
    · cases f with
      | zero => simp at hx; exact hx
      | succ g =>
        simp at hx
        rcases hx with hx | hx
        · exact hx
        · exact ih (i + 1) s x hx
    · simp at hx; exact hx


theorem lookupS_stamp_ri (hh : List (String × String)) (a b : String) :
    lookupS RequestInfoField (mapSet (mapSet hh RequestInfoField a) VersionField b) =
      some a := rfl

theorem lookupS_stamp_v (hh : List (String × String)) (a b : String) :
    lookupS VersionField (mapSet (mapSet hh RequestInfoField a) VersionField b) =
      some b := rfl

theorem lookupS_stamp_op (dd : List (String × String)) (a : String) :
    lookupS OpField (mapSet dd OpField a) = some a := rfl

theorem stampObservation_good (ri v op : String) (o : Observation)
    (h : ObsGood ri v op o) : ObsGood ri v op (stampObservation o) := by
  obtain ⟨h1, h2, h3, h4, h5⟩ := h
  rcases Option.isSome_iff_exists.mp h4 with ⟨hh, hheq⟩
  rcases Option.isSome_iff_exists.mp h5 with ⟨dd, hdeq⟩
  exact ⟨h1, h2, h3, by simp [stampObservation, hheq], by simp [stampObservation, hdeq]⟩

theorem stampObservation_payload (ri v op : String) (o : Observation)
    (h : ObsGood ri v op o) :
    PayloadStamped ri v op (stampObservation o).payload := by
  obtain ⟨h1, h2, h3, h4, h5⟩ := h
  rcases Option.isSome_iff_exists.mp h4 with ⟨hh, hheq⟩
  rcases Option.isSome_iff_exists.mp h5 with ⟨dd, hdeq⟩
  subst h1; subst h2; subst h3
  refine ⟨?_, ?_, ?_, ?_, ?_⟩ <;>
    simp [stampObservation, Observation.payload, hheq, hdeq, headerLookup, detailLookup,
      lookupS_stamp_ri, lookupS_stamp_v, lookupS_stamp_op]

theorem retryLoop_obs_payloads (outcome : Nat → SendOutcome) (ri v op : String)
    (fuel : Nat) : ∀ (i : Nat) (o : Observation), ObsGood ri v op o →
    ∀ p ∈ (retryLoop outcome obsStep fuel i o).2.2, PayloadStamped ri v op p := by
  induction fuel with
  | zero => intro i o _ p hp; rw [retryLoop_zero] at hp; simp at hp
  | succ f ih =>
    intro i o hgood p hp
    rw [retryLoop_succ] at hp
    cases houtcome : outcome i <;> rw [houtcome] at hp
    · simp at hp; subst hp; exact stampObservation_payload ri v op o hgood
    · cases f with
      | zero =>
        simp at hp; subst hp
        exact stampObservation_payload ri v op o hgood
      | succ g =>
        simp at hp
        rcases hp with hp | hp
        · subst hp; exact stampObservation_payload ri v op o hgood
        · exact ih (i + 1) (stampObservation o) (stampObservation_good ri v op o hgood) p hp
    · simp at hp; subst hp; exact stampObservation_payload ri v op o hgood


/-- Claim C3, counterexample: the claim says every flushable node's
`FlushAll` is attempted even when an earlier node's `FlushAll` errors. For
the eventer built from the defaulted configuration (gates 2 and 4) and an
environment in which node 2's `FlushAll` fails, node 4 is never attempted. -/
theorem claim3_flushnodes_skips_after_error :
    4 ∈ (okOf (NewEventer true true ⟨false, true, true, []⟩)).flushableNodes ∧
    4 ∉ (FlushNodes (okOf (NewEventer true true ⟨false, true, true, []⟩)) flushBoom).2 := by
  decide

/-- Claim C3, amended: `FlushNodes` calls `FlushAll` on the flushable (Gate)
nodes collected during construction in order and returns nil if all succeed;
on the first `FlushAll` error it wraps and returns that error immediately,
without attempting the remaining nodes. -/
theorem claim3_flushnodes_first_error :
    ∀ (e : EventerM) (flush : Nat → Option String),
      ((∀ n ∈ e.flushableNodes, flush n = none) →
        FlushNodes e flush = (.ok (), e.flushableNodes)) ∧
      (∀ (l₁ : List Nat) (n : Nat) (m : String) (l₂ : List Nat),
        e.flushableNodes = l₁ ++ n :: l₂ →
        (∀ x ∈ l₁, flush x = none) → flush n = some m →
        FlushNodes e flush =
          (.error ("event.(Eventer).FlushNodes: " ++ m), l₁ ++ [n])) := by
  intro e flush
  refine ⟨fun h => flushNodesList_all_ok flush _ h,
    fun l₁ n m l₂ hsplit h₁ hn => ?_⟩
  unfold FlushNodes
  rw [hsplit]
  exact flushNodesList_first_error flush l₁ n m l₂ h₁ hn

/-- Witness for C3's amended theorem at a concrete eventer and flush
environment: the first failing gate's error is returned and only the prefix
up to it is attempted. -/
theorem claim3_flushnodes_first_error_witness :
    FlushNodes (okOf (NewEventer true true ⟨false, true, true, []⟩)) flushBoom =
      (.error ("event.(Eventer).FlushNodes: " ++ "boom"), [2]) :=
  (claim3_flushnodes_first_error (okOf (NewEventer true true ⟨false, true, true, []⟩))
    flushBoom).2 [] 2 "boom" [4] rfl (by simp) rfl

/-- Claim C6: for every non-nil event, a disabled Audit or Observation type
makes the corresponding write method return nil without any `Broker.Send`;
`writeError` has no enabled flag and always attempts delivery (at least one
send, every send with the Error event type). -/
theorem claim6_disabled_writes_noop_error_always_sends :
    ∀ (e : EventerM) (o : Observation) (retries : Nat) (outcome : Nat → SendOutcome),
      (e.conf.auditEnabled = false →
        writeAudit e (some ()) retries outcome = (.ok (), [])) ∧
      (e.conf.observationsEnabled = false →
        writeObservation e (some o) retries outcome = (.ok (), [])) ∧
      (1 ≤ retries →
        (writeError e (some ()) retries outcome).2 ≠ [] ∧
        ∀ t ∈ (writeError e (some ()) retries outcome).2, t = EvType.error) := by
  intro e o retries outcome
  refine ⟨fun h => ?_, fun h => ?_, fun h => ⟨?_, ?_⟩⟩
  · simp [writeAudit, h]
  · simp [writeObservation, h]
  · simpa [writeError] using retryLoop_log_ne_nil outcome (fun u => (u, EvType.error)) retries 0 () h
  · simpa [writeError] using retryLoop_log_const outcome EvType.error retries 0 ()

/-- Witness for C6 at a concrete eventer with Audit and Observations
disabled, and three retries with all sends succeeding. -/
theorem claim6_disabled_writes_noop_error_always_sends_witness :
    writeAudit eAllOff (some ()) 3 allOk = (.ok (), []) ∧
    writeObservation eAllOff (some oW) 3 allOk = (.ok (), []) ∧
    (writeError eAllOff (some ()) 3 allOk).2 ≠ [] :=
  ⟨(claim6_disabled_writes_noop_error_always_sends eAllOff oW 3 allOk).1 rfl,
   (claim6_disabled_writes_noop_error_always_sends eAllOff oW 3 allOk).2.1 rfl,
   ((claim6_disabled_writes_noop_error_always_sends eAllOff oW 3 allOk).2.2
     (by norm_num)).1⟩

/-- Claim C9: while observations are enabled, every payload handed to
`Broker.Send` by `writeObservation` — on the first attempt and on every
retry — carries the stamped request-info and version header fields and the
stamped op detail field, and is sent under the Observation event type. -/
theorem claim9_observation_stamped_payload :
    ∀ (e : EventerM) (o : Observation) (retries : Nat) (outcome : Nat → SendOutcome),
      e.conf.observationsEnabled = true →
      o.header.isSome = true → o.detail.isSome = true →
      ∀ x ∈ (writeObservation e (some o) retries outcome).2,
        x.1 = EvType.observation ∧
        PayloadStamped o.requestInfo o.version o.op x.2 := by
  intro e o retries outcome hen hh hd x hx
  simp [writeObservation, hen] at hx
  rcases hx with ⟨p1, p2, hp, rfl⟩
  exact ⟨rfl,
    retryLoop_obs_payloads outcome o.requestInfo o.version o.op retries 0 o
      ⟨rfl, rfl, rfl, hh, hd⟩ (p1, p2) hp⟩


/-- Witness for C9 at a concrete enabled eventer, observation and outcome
environment with a retry: the first sent payload is stamped. -/
theorem claim9_observation_stamped_payload_witness :
    pW ∈ (writeObservation eAllOn (some oW) 2 outTS).2 ∧
    pW.1 = EvType.observation ∧
    PayloadStamped "ri1" "v1" "op1" pW.2 :=
  ⟨by decide,
   (claim9_observation_stamped_payload eAllOn oW 2 outTS rfl rfl rfl pW (by decide)).1,
   (claim9_observation_stamped_payload eAllOn oW 2 outTS rfl rfl rfl pW (by decide)).2⟩

/-- Claim C10: whenever `InitSysEventer` returns an error (nil logger, nil
serialization lock, neither or both of eventer and config, or `NewEventer`
failing), the singleton is unchanged: `SysEventer` afterwards returns
exactly what it returned before. -/
theorem claim10_init_syseventer_atomic :
    ∀ (st : Option EventerM) (hl hlk : Bool) (we : Option EventerM)
      (wc : Option EventerConfig),
      isErrorE (InitSysEventer st hl hlk we wc).1 = true →
      SysEventer (InitSysEventer st hl hlk we wc).2 = SysEventer st := by
  intro st hl hlk we wc h
  cases hl with
  | false => rfl
  | true =>
    cases hlk with
    | false => rfl
    | true =>
      cases we <;> cases wc
      · rfl
      · rename_i cfg
        cases hne : NewEventer true true cfg with
        | error m => simp [InitSysEventer, SysEventer, hne]
        | ok e => simp [InitSysEventer, isErrorE, hne] at h
      · simp [InitSysEventer, isErrorE] at h
      · rfl

/-- Witness for C10 at a concrete failing call (neither an eventer nor a
config supplied) against a non-empty singleton. -/
theorem claim10_init_syseventer_atomic_witness :
    isErrorE (InitSysEventer (some eAllOff) true true none none).1 = true ∧
    SysEventer (InitSysEventer (some eAllOff) true true none none).2 =
      SysEventer (some eAllOff) :=
  ⟨rfl, claim10_init_syseventer_atomic (some eAllOff) true true none none rfl⟩


/-- Claim C2 (code bug in part_000): part_000's `Audit` hands `InfoType`,
not `AuditType`, to `Broker.Send`, even though the same file registers its
audit pipeline under `AuditType`; eventer.go's `writeAudit` does send with
`AuditType`. -/
theorem claim2_audit_send_event_type :
    (P0.Audit p0On (.ok ())).2 = [EvType.info] ∧
    EvType.info ≠ EvType.audit ∧
    (∃ q ∈ (P0.okOf (P0.NewEventer true p0On)).broker.pipelines,
      q.pipelineId = "audit-pipeline" ∧ q.eventType = EvType.audit) ∧
    (writeAudit eAllOn (some ()) 3 allOk).2 = [EvType.audit] := by
  refine ⟨rfl, by decide, by decide, rfl⟩


/-- Claim C4 (code bug in eventer.go): `allSinkFilenames` is only ever
read (line 206) and never written, so the duplicate-file-sink check can
never fire: `NewEventer` accepts two file sinks with identical path and
identical filename and registers both; distinct filenames are of course
also accepted. -/
theorem claim4_duplicate_file_sink_accepted :
    isOkE (NewEventer true true cfgDup) = true ∧
    ((okOf (NewEventer true true cfgDup)).broker.nodes.countP (fun x => x.2.isSink)) = 2 ∧
    isOkE (NewEventer true true cfgDistinct) = true := by
  decide

theorem registerSinkNode_ok (st : Build) (s : SinkConfig) (st₂ : Build)
    (h : registerSinkNode st s = .ok st₂) :
    ∃ nd, nd.isSink = true ∧
      st₂ = { st with nodes := st.nodes ++ [(st.ctr, nd)], ctr := st.ctr + 1 } := by
  unfold registerSinkNode at h
  split at h
  · injection h with h
    exact ⟨Node.stderrSink s.format, rfl, h.symm⟩
  · split at h
    · simp at h
    · injection h with h
      exact ⟨Node.fileSink s.format s.path s.fileName s.rotateBytes s.rotateDuration
        s.rotateMaxFiles, rfl, h.symm⟩

theorem processSinks_ok (f : Nat) :
    ∀ (sinks : List SinkConfig) (st : Build) (ls : SinkLists) (st' : Build) (ls' : SinkLists),
    processSinks f sinks st ls = .ok (st', ls') →
    st'.ctr = st.ctr + sinks.length ∧
    st'.pipes = st.pipes ∧
    st'.thresholds = st.thresholds ∧
    st'.flush = st.flush ∧
    (∃ new, st'.nodes = st.nodes ++ new ∧
      ∀ x ∈ new, x.2.isSink = true ∧ st.ctr ≤ x.1 ∧ x.1 < st'.ctr) ∧
    (∃ A, ls'.audit = ls.audit ++ A ∧
      A.length = sinks.countP (fun s => wants s .audit) ∧
      ∀ rec ∈ A, RecOk f st st' .audit rec) ∧
    (∃ A, ls'.obs = ls.obs ++ A ∧
      A.length = sinks.countP (fun s => wants s .observation) ∧
      ∀ rec ∈ A, RecOk f st st' .observation rec) ∧
    (∃ A, ls'.err = ls.err ++ A ∧
      A.length = sinks.countP (fun s => wants s .error) ∧
      ∀ rec ∈ A, RecOk f st st' .error rec) ∧
    (∃ A, ls'.sys = ls.sys ++ A ∧
      A.length = sinks.countP (fun s => wants s .system) ∧
      ∀ rec ∈ A, RecOk f st st' .system rec) := by
  intro sinks
  induction sinks with
  | nil =>
    intro st ls st' ls' h
    simp only [processSinks] at h
    injection h with h
    rw [Prod.mk.injEq] at h
    obtain ⟨rfl, rfl⟩ := h
    refine ⟨by simp, rfl, rfl, rfl, ⟨[], by simp, by simp⟩, ?_, ?_, ?_, ?_⟩ <;>
      exact ⟨[], by simp, by simp, by simp⟩
  | cons s rest ih =>
    intro st ls st' ls' h
    simp only [processSinks] at h
    cases hreg : registerSinkNode st s with
    | error m => rw [hreg] at h; simp at h
    | ok st₂ =>
      rw [hreg] at h
      obtain ⟨nd, hndSink, hst₂⟩ := registerSinkNode_ok st s st₂ hreg
      have hc2 : st₂.ctr = st.ctr + 1 := by rw [hst₂]
      have hn2 : st₂.nodes = st.nodes ++ [(st.ctr, nd)] := by rw [hst₂]
      have hp2 : st₂.pipes = st.pipes := by rw [hst₂]
      have ht2 : st₂.thresholds = st.thresholds := by rw [hst₂]
      have hf2 : st₂.flush = st.flush := by rw [hst₂]
      obtain ⟨ihc, ihp, iht, ihf, ⟨new₂, hnodes, hbnd⟩, ⟨A2, hA2, hA2len, hA2rec⟩,
        ⟨O2, hO2, hO2len, hO2rec⟩, ⟨E2, hE2, hE2len, hE2rec⟩,
        ⟨S2, hS2, hS2len, hS2rec⟩⟩ := ih _ _ _ _ h
      have hc' : st'.ctr = st.ctr + (rest.length + 1) := by omega
      have hstep : st.ctr < st'.ctr := by omega
      have hmemsnk : (st.ctr, nd) ∈ st'.nodes := by
        rw [hnodes, hn2]
        simp
      refine ⟨by simpa using hc', by rw [ihp, hp2], by rw [iht, ht2], by rw [ihf, hf2],
        ⟨(st.ctr, nd) :: new₂, ?_, ?_⟩, ?_, ?_, ?_, ?_⟩
      · rw [hnodes, hn2]; simp
      · intro x hx
        rcases List.mem_cons.mp hx with rfl | hx
        · exact ⟨hndSink, le_refl _, hstep⟩
        · obtain ⟨h1, h2, h3⟩ := hbnd x hx
          exact ⟨h1, by omega, h3⟩
      · refine ⟨(if wants s .audit then [⟨.audit, f, st.ctr, none, s⟩] else []) ++ A2,
          by rw [hA2]; simp, ?_, ?_⟩
        · by_cases hw : wants s .audit = true <;>
            simp [hw, hA2len, List.countP_cons]
        · intro rec hrec
          rcases List.mem_append.mp hrec with hrec | hrec
          · by_cases hw : wants s .audit = true <;> simp [hw] at hrec
            subst hrec
            exact ⟨rfl, rfl, le_refl _, hstep, nd, hmemsnk, hndSink⟩
          · obtain ⟨r1, r2, r3, r4, r5⟩ := hA2rec rec hrec
            exact ⟨r1, r2, by omega, r4, r5⟩
      · refine ⟨(if wants s .observation then [⟨.observation, f, st.ctr, none, s⟩] else []) ++ O2,
          by rw [hO2]; simp, ?_, ?_⟩
        · by_cases hw : wants s .observation = true <;>
            simp [hw, hO2len, List.countP_cons]
        · intro rec hrec
          rcases List.mem_append.mp hrec with hrec | hrec
          · by_cases hw : wants s .observation = true <;> simp [hw] at hrec
            subst hrec
            exact ⟨rfl, rfl, le_refl _, hstep, nd, hmemsnk, hndSink⟩
          · obtain ⟨r1, r2, r3, r4, r5⟩ := hO2rec rec hrec
            exact ⟨r1, r2, by omega, r4, r5⟩
      · refine ⟨(if wants s .error then [⟨.error, f, st.ctr, none, s⟩] else []) ++ E2,
          by rw [hE2]; simp, ?_, ?_⟩
        · by_cases hw : wants s .error = true <;>
            simp [hw, hE2len, List.countP_cons]
        · intro rec hrec
          rcases List.mem_append.mp hrec with hrec | hrec
          · by_cases hw : wants s .error = true <;> simp [hw] at hrec
            subst hrec
            exact ⟨rfl, rfl, le_refl _, hstep, nd, hmemsnk, hndSink⟩
          · obtain ⟨r1, r2, r3, r4, r5⟩ := hE2rec rec hrec
            exact ⟨r1, r2, by omega, r4, r5⟩
      · refine ⟨(if wants s .system then [⟨.system, f, st.ctr, none, emptySinkConfig⟩] else [])
            ++ S2, by rw [hS2]; simp, ?_, ?_⟩
        · by_cases hw : wants s .system = true <;>
            simp [hw, hS2len, List.countP_cons]
        · intro rec hrec
          rcases List.mem_append.mp hrec with hrec | hrec
          · by_cases hw : wants s .system = true <;> simp [hw] at hrec
            subst hrec
            exact ⟨rfl, rfl, le_refl _, hstep, nd, hmemsnk, hndSink⟩
          · obtain ⟨r1, r2, r3, r4, r5⟩ := hS2rec rec hrec
            exact ⟨r1, r2, by omega, r4, r5⟩

theorem gatedPhase_spec : ∀ (recs : List PipelineRec) (st : Build),
    (gatedPhase recs st).ctr = st.ctr + 2 * recs.length ∧
    (gatedPhase recs st).thresholds = st.thresholds ∧
    (∃ gnew, (gatedPhase recs st).nodes = st.nodes ++ gnew ∧
      ∀ x ∈ gnew, x.2 = Node.gatedFilter ∧ st.ctr ≤ x.1 ∧ x.1 < (gatedPhase recs st).ctr) ∧
    (∃ fnew pnew,
      (gatedPhase recs st).flush = st.flush ++ fnew ∧
      (gatedPhase recs st).pipes = st.pipes ++ pnew ∧
      fnew.length = recs.length ∧
      List.Pairwise (· < ·) fnew ∧
      (∀ g ∈ fnew, st.ctr ≤ g ∧ g < (gatedPhase recs st).ctr) ∧
      pnew.map (fun q => q.nodeIds.head?) = fnew.map some ∧
      pnew.map Pipeline.eventType = recs.map PipelineRec.eventType ∧
      (∀ q ∈ pnew, ∃ rec ∈ recs, ∃ g,
        q.eventType = rec.eventType ∧ q.nodeIds = [g, rec.fmtId, rec.sinkId] ∧
        (g, Node.gatedFilter) ∈ (gatedPhase recs st).nodes ∧
        g ∈ fnew ∧ st.ctr ≤ g)) := by
  intro recs
  induction recs with
  | nil =>
    intro st
    exact ⟨by simp [gatedPhase], rfl, ⟨[], by simp [gatedPhase], by simp⟩,
      ⟨[], [], by simp [gatedPhase], by simp [gatedPhase], rfl, by simp, by simp,
        rfl, rfl, by simp⟩⟩
  | cons p rest ih =>
    intro st
    have hunfold : gatedPhase (p :: rest) st =
        gatedPhase rest { st with
          nodes := st.nodes ++ [(st.ctr, Node.gatedFilter)]
          flush := st.flush ++ [st.ctr]
          pipes := st.pipes ++
            [⟨p.eventType, toString (st.ctr + 1), [st.ctr, p.fmtId, p.sinkId]⟩]
          ctr := st.ctr + 2 } := rfl
    obtain ⟨ihc, iht, ⟨gnew, hgn, hgb⟩, ⟨fnew, pnew, hfl, hpi, hflen, hford, hfbnd,
      hmap, hmapty, hq⟩⟩ := ih { st with
        nodes := st.nodes ++ [(st.ctr, Node.gatedFilter)]
        flush := st.flush ++ [st.ctr]
        pipes := st.pipes ++
          [⟨p.eventType, toString (st.ctr + 1), [st.ctr, p.fmtId, p.sinkId]⟩]
        ctr := st.ctr + 2 }
    rw [← hunfold] at ihc iht hgn hgb hfl hpi hfbnd hq
    have hc' : (gatedPhase (p :: rest) st).ctr = st.ctr + 2 * (rest.length + 1) := by
      rw [ihc]; simp; omega
    refine ⟨by simpa using hc', by rw [iht], ?_, ?_⟩
    · refine ⟨(st.ctr, Node.gatedFilter) :: gnew, by rw [hgn]; simp, ?_⟩
      intro x hx
      rcases List.mem_cons.mp hx with rfl | hx
      · exact ⟨rfl, le_refl _, by omega⟩
      · obtain ⟨h1, h2, h3⟩ := hgb x hx
        exact ⟨h1, by simp at h2; omega, h3⟩
    · refine ⟨st.ctr :: fnew,
        ⟨p.eventType, toString (st.ctr + 1), [st.ctr, p.fmtId, p.sinkId]⟩ :: pnew,
        by rw [hfl]; simp, by rw [hpi]; simp, by simp [hflen], ?_, ?_, ?_, ?_, ?_⟩
      · refine List.pairwise_cons.mpr ⟨?_, hford⟩
        intro g hg
        have := (hfbnd g hg).1
        simp at this; omega
      · intro g hg
        rcases List.mem_cons.mp hg with rfl | hg
        · exact ⟨le_refl _, by omega⟩
        · obtain ⟨h1, h2⟩ := hfbnd g hg
          simp at h1
          exact ⟨by omega, h2⟩
      · simp [hmap]
      · simp [hmapty]
      · intro q hq'
        rcases List.mem_cons.mp hq' with rfl | hq'
        · refine ⟨p, by simp, st.ctr, rfl, rfl, ?_, by simp, le_refl _⟩
          rw [hgn]; simp
        · obtain ⟨rec, hrec, g, e1, e2, e3, e4, e5⟩ := hq q hq'
          exact ⟨rec, by simp [hrec], g, e1, e2, e3, by simp [e4], by simp at e5; omega⟩

theorem plainPhase_spec : ∀ (recs : List PipelineRec) (st : Build),
    (plainPhase recs st).1.ctr = st.ctr + recs.length ∧
    (plainPhase recs st).1.nodes = st.nodes ∧
    (plainPhase recs st).1.thresholds = st.thresholds ∧
    (plainPhase recs st).1.flush = st.flush ∧
    (plainPhase recs st).2 = recs.map PipelineRec.sinkId ∧
    (∃ pnew, (plainPhase recs st).1.pipes = st.pipes ++ pnew ∧
      pnew.map Pipeline.eventType = recs.map PipelineRec.eventType ∧
      ∀ q ∈ pnew, ∃ rec ∈ recs,
        q.eventType = rec.eventType ∧ q.nodeIds = [rec.fmtId, rec.sinkId]) := by
  intro recs
  induction recs with
  | nil =>
    intro st
    exact ⟨by simp [plainPhase], rfl, rfl, rfl, rfl, ⟨[], by simp [plainPhase], rfl, by simp⟩⟩
  | cons p rest ih =>
    intro st
    have hunfold : plainPhase (p :: rest) st =
        ((plainPhase rest { st with
            pipes := st.pipes ++ [⟨p.eventType, toString st.ctr, [p.fmtId, p.sinkId]⟩]
            ctr := st.ctr + 1 }).1,
          p.sinkId :: (plainPhase rest { st with
            pipes := st.pipes ++ [⟨p.eventType, toString st.ctr, [p.fmtId, p.sinkId]⟩]
            ctr := st.ctr + 1 }).2) := rfl
    obtain ⟨ihc, ihn, iht, ihf, ihids, ⟨pnew, hpi, hpty, hq⟩⟩ := ih { st with
        pipes := st.pipes ++ [⟨p.eventType, toString st.ctr, [p.fmtId, p.sinkId]⟩]
        ctr := st.ctr + 1 }
    rw [hunfold]
    refine ⟨by simp [ihc]; omega, by simp [ihn], by simp [iht], by simp [ihf],
      by simp [ihids], ?_⟩
    refine ⟨⟨p.eventType, toString st.ctr, [p.fmtId, p.sinkId]⟩ :: pnew,
      by simp [hpi], by simp [hpty], ?_⟩
    intro q hq'
    rcases List.mem_cons.mp hq' with rfl | hq'
    · exact ⟨p, by simp, rfl, rfl⟩
    · obtain ⟨rec, hrec, e1, e2⟩ := hq q hq'
      exact ⟨rec, by simp [hrec], e1, e2⟩

theorem NewEventer_true_true (c : EventerConfig) :
    NewEventer true true c =
      (match (defaulted c).Validate with
        | .error m => .error m
        | .ok _ =>
          match processSinks 0 (defaulted c).sinks buildInit ⟨[], [], [], []⟩ with
          | .error m => .error m
          | .ok (st1, ls) => checksAndFinish (defaulted c) st1 ls) := rfl

theorem checksAndFinish_ok (c : EventerConfig) (st1 : Build) (ls : SinkLists)
    (e : EventerM) (h : checksAndFinish c st1 ls = .ok e) : e = finish st1 ls c := by
  unfold checksAndFinish at h
  split_ifs at h
  injection h with h
  exact h.symm

theorem NewEventer_ok_inv (hl hlk : Bool) (c : EventerConfig) (e : EventerM)
    (h : NewEventer hl hlk c = .ok e) :
    ∃ st1 ls, processSinks 0 (defaulted c).sinks buildInit ⟨[], [], [], []⟩ = .ok (st1, ls) ∧
      e = finish st1 ls (defaulted c) := by
  cases hl with
  | false => exact absurd h (by simp [NewEventer])
  | true =>
    cases hlk with
    | false => exact absurd h (by simp [NewEventer])
    | true =>
      rw [NewEventer_true_true] at h
      cases hv : (defaulted c).Validate with
      | error m => rw [hv] at h; simp at h
      | ok u =>
        rw [hv] at h
        cases hps : processSinks 0 (defaulted c).sinks buildInit ⟨[], [], [], []⟩ with
        | error m => rw [hps] at h; simp at h
        | ok r =>
          rw [hps] at h
          obtain ⟨st1, ls⟩ := r
          exact ⟨st1, ls, rfl, checksAndFinish_ok _ _ _ _ h⟩

theorem P0_processSinks_spec :
    ∀ (sinks : List SinkConfig) (st : Build) (a i er : List Nat),
    (P0.processSinks sinks st a i er).1.ctr = st.ctr + sinks.length ∧
    (P0.processSinks sinks st a i er).1.pipes = st.pipes ∧
    (P0.processSinks sinks st a i er).1.thresholds = st.thresholds ∧
    (∃ new, (P0.processSinks sinks st a i er).1.nodes = st.nodes ++ new ∧
      ∀ x ∈ new, x.2.isSink = true ∧ st.ctr ≤ x.1 ∧
        x.1 < (P0.processSinks sinks st a i er).1.ctr) ∧
    (∃ A, (P0.processSinks sinks st a i er).2.1 = a ++ A ∧
      A.length = sinks.countP (fun s => wants s .audit)) ∧
    (∃ I, (P0.processSinks sinks st a i er).2.2.1 = i ++ I ∧
      I.length = sinks.countP (fun s => wants s .info)) ∧
    (∃ E, (P0.processSinks sinks st a i er).2.2.2 = er ++ E ∧
      E.length = sinks.countP (fun s => wants s .error)) := by
  intro sinks
  induction sinks with
  | nil =>
    intro st a i er
    exact ⟨by simp [P0.processSinks], rfl, rfl, ⟨[], by simp [P0.processSinks], by simp⟩,
      ⟨[], by simp [P0.processSinks], by simp⟩, ⟨[], by simp [P0.processSinks], by simp⟩,
      ⟨[], by simp [P0.processSinks], by simp⟩⟩
  | cons s rest ih =>
    intro st a i er
    have hunfold : P0.processSinks (s :: rest) st a i er =
        P0.processSinks rest
          { st with
            nodes := st.nodes ++ [(st.ctr, Node.fileSink s.format s.path s.fileName s.rotateBytes s.rotateDuration s.rotateMaxFiles)]
            ctr := st.ctr + 1 }
          (a ++ if wants s .audit then [st.ctr] else [])
          (i ++ if wants s .info then [st.ctr] else [])
          (er ++ if wants s .error then [st.ctr] else []) := rfl
    obtain ⟨ihc, ihp, iht, ⟨new₂, hn, hb⟩, ⟨A2, hA2, hA2len⟩, ⟨I2, hI2, hI2len⟩,
      ⟨E2, hE2, hE2len⟩⟩ := ih
        { st with
          nodes := st.nodes ++ [(st.ctr, Node.fileSink s.format s.path s.fileName s.rotateBytes s.rotateDuration s.rotateMaxFiles)]
          ctr := st.ctr + 1 }
        (a ++ if wants s .audit then [st.ctr] else [])
        (i ++ if wants s .info then [st.ctr] else [])
        (er ++ if wants s .error then [st.ctr] else [])
    rw [hunfold]
    have hc' : (P0.processSinks (s :: rest) st a i er).1.ctr =
        st.ctr + (rest.length + 1) := by
      rw [hunfold, ihc]; simp; omega
    refine ⟨by simpa using hc', by simp [ihp], by simp [iht], ?_, ?_, ?_, ?_⟩
    · refine ⟨(st.ctr, Node.fileSink s.format s.path s.fileName s.rotateBytes s.rotateDuration s.rotateMaxFiles) :: new₂,
        by rw [hn]; simp, ?_⟩
      intro x hx
      have hrr := hc'
      rw [hunfold] at hrr
      rcases List.mem_cons.mp hx with rfl | hx
      · exact ⟨rfl, le_refl _, by omega⟩
      · obtain ⟨h1, h2, h3⟩ := hb x hx
        simp at h2
        exact ⟨h1, by omega, h3⟩
    · refine ⟨(if wants s .audit then [st.ctr] else []) ++ A2, by rw [hA2]; simp, ?_⟩
      by_cases hw : wants s .audit = true <;> simp [hw, hA2len, List.countP_cons]
    · refine ⟨(if wants s .info then [st.ctr] else []) ++ I2, by rw [hI2]; simp, ?_⟩
      by_cases hw : wants s .info = true <;> simp [hw, hI2len, List.countP_cons]
    · refine ⟨(if wants s .error then [st.ctr] else []) ++ E2, by rw [hE2]; simp, ?_⟩
      by_cases hw : wants s .error = true <;> simp [hw, hE2len, List.countP_cons]

theorem P0_NewEventer_ok_inv (hl : Bool) (c : P0.Config) (e' : P0.Eventer)
    (h : P0.NewEventer hl c = .ok e') : e' = P0.mkEventer (P0.defaulted c) := by
  cases hl with
  | false => simp [P0.NewEventer] at h
  | true =>
    replace h : Except.ok (P0.mkEventer (P0.defaulted c)) = Except.ok e' := h
    injection h with h
    exact h.symm

theorem P0_defaulted_deliveries (c : P0.Config) :
    (P0.defaulted c).auditDelivery = c.auditDelivery ∧
    (P0.defaulted c).infoDelivery = c.infoDelivery := by
  unfold P0.defaulted
  split <;> exact ⟨rfl, rfl⟩

theorem NewEventer_error_threshold (hl hlk : Bool) (c : EventerConfig) (e : EventerM)
    (h : NewEventer hl hlk c = .ok e) :
    e.conf = defaulted c ∧
    lookupThreshold EvType.error e.broker.thresholds =
      some (e.conf.sinks.countP (fun s => wants s EvType.error)) := by
  obtain ⟨st1, ls, hps, rfl⟩ := NewEventer_ok_inv hl hlk c e h
  obtain ⟨psc, psp, pst, psf, -, -, -, ⟨E, hE, hElen, -⟩, -⟩ :=
    processSinks_ok 0 (defaulted c).sinks buildInit ⟨[], [], [], []⟩ st1 ls hps
  refine ⟨rfl, ?_⟩
  have hconf : (finish st1 ls (defaulted c)).conf = defaulted c := rfl
  rw [hconf]
  have hthr : (finish st1 ls (defaulted c)).broker.thresholds =
      (plainPhase ls.sys
          (plainPhase ls.err (gatedPhase ls.obs (gatedPhase ls.audit st1))).1).1.thresholds ++
        [(EvType.error,
          (plainPhase ls.err (gatedPhase ls.obs (gatedPhase ls.audit st1))).2.length)] := rfl
  rw [hthr]
  have t1 : (gatedPhase ls.audit st1).thresholds = st1.thresholds :=
    (gatedPhase_spec ls.audit st1).2.1
  have t2 : (gatedPhase ls.obs (gatedPhase ls.audit st1)).thresholds =
      (gatedPhase ls.audit st1).thresholds :=
    (gatedPhase_spec ls.obs (gatedPhase ls.audit st1)).2.1
  have t3 := (plainPhase_spec ls.err (gatedPhase ls.obs (gatedPhase ls.audit st1))).2.2.1
  have t4 := (plainPhase_spec ls.sys
    (plainPhase ls.err (gatedPhase ls.obs (gatedPhase ls.audit st1))).1).2.2.1
  have ids := (plainPhase_spec ls.err (gatedPhase ls.obs (gatedPhase ls.audit st1))).2.2.2.2.1
  have hst1t : st1.thresholds = [] := by rw [pst]; rfl
  rw [t4, t3, t2, t1, hst1t, ids]
  have hlen : ls.err.length = (defaulted c).sinks.countP (fun s => wants s EvType.error) := by
    rw [hE]
    simp only [List.nil_append, hElen]
  simp [lookupThreshold, hlen]

theorem P0_error_threshold (hl : Bool) (c : P0.Config) (e' : P0.Eventer)
    (h : P0.NewEventer hl c = .ok e') :
    e'.conf = P0.defaulted c ∧
    lookupThreshold EvType.error e'.broker.thresholds =
      some (1 + e'.conf.sinks.countP (fun s => wants s EvType.error)) := by
  obtain rfl := P0_NewEventer_ok_inv hl c e' h
  refine ⟨rfl, ?_⟩
  obtain ⟨-, -, -, -, -, -, ⟨E, hE, hElen⟩⟩ :=
    P0_processSinks_spec (P0.defaulted c).sinks
      ⟨[(0, Node.jsonFormatter)], [], [], 1, [], []⟩ [0] [0] [0]
  have hconf : (P0.mkEventer (P0.defaulted c)).conf = P0.defaulted c := rfl
  rw [hconf]
  have hth : (P0.mkEventer (P0.defaulted c)).broker.thresholds =
      (if (P0.defaulted c).auditDelivery = Enforced then
        [(EvType.audit, (P0.processSinks (P0.defaulted c).sinks
          ⟨[(0, Node.jsonFormatter)], [], [], 1, [], []⟩ [0] [0] [0]).2.1.length)] else []) ++
      (if (P0.defaulted c).infoDelivery = Enforced then
        [(EvType.info, (P0.processSinks (P0.defaulted c).sinks
          ⟨[(0, Node.jsonFormatter)], [], [], 1, [], []⟩ [0] [0] [0]).2.2.1.length)] else []) ++
      [(EvType.error, (P0.processSinks (P0.defaulted c).sinks
          ⟨[(0, Node.jsonFormatter)], [], [], 1, [], []⟩ [0] [0] [0]).2.2.2.length)] := rfl
  rw [hth]
  have hlen : (P0.processSinks (P0.defaulted c).sinks
      ⟨[(0, Node.jsonFormatter)], [], [], 1, [], []⟩ [0] [0] [0]).2.2.2.length =
      1 + (P0.defaulted c).sinks.countP (fun s => wants s EvType.error) := by
    rw [hE]
    simp only [List.length_append, List.length_cons, List.length_nil, hElen]
  rw [hlen]
  split_ifs <;> simp [lookupThreshold]

/-- Claim C1, amended: eventer.go's `NewEventer` sets the broker's Error
success threshold to exactly the number of sink nodes subscribed to Error
(the shared formatter is not counted), regardless of configuration; the
part_000 `NewEventer` instead sets it to that sink count PLUS ONE, because
the shared JSON formatter's node id is seeded into `errNodeIds` (part_000
line 76) and counted by `SetSuccessThreshold` (line 179). -/
theorem claim1_error_threshold :
    (∀ (hl hlk : Bool) (c : EventerConfig) (e : EventerM),
      NewEventer hl hlk c = .ok e →
      lookupThreshold EvType.error e.broker.thresholds =
        some (e.conf.sinks.countP (fun s => wants s EvType.error))) ∧
    (∀ (hl : Bool) (c : P0.Config) (e' : P0.Eventer),
      P0.NewEventer hl c = .ok e' →
      lookupThreshold EvType.error e'.broker.thresholds =
        some (1 + e'.conf.sinks.countP (fun s => wants s EvType.error))) :=
  ⟨fun hl hlk c e h => (NewEventer_error_threshold hl hlk c e h).2,
   fun hl c e' h => (P0_error_threshold hl c e' h).2⟩

/-- Claim C1, counterexample: for the part_000 `NewEventer` with one sink
subscribed to Error, the Error success threshold is 2, not the claimed
number of Error-subscribed sink nodes (1): the formatter IS counted. -/
theorem claim1_error_threshold_counterexample :
    lookupThreshold EvType.error
      (P0.okOf (P0.NewEventer true p0OneErr)).broker.thresholds = some 2 ∧
    (P0.okOf (P0.NewEventer true p0OneErr)).conf.sinks.countP
      (fun s => wants s EvType.error) = 1 := by
  decide

/-- Witness for C1's amended theorem at concrete configurations of both
constructors. -/
theorem claim1_error_threshold_witness :
    lookupThreshold EvType.error eAllOn.broker.thresholds =
      some (eAllOn.conf.sinks.countP (fun s => wants s EvType.error)) ∧
    lookupThreshold EvType.error
        (P0.okOf (P0.NewEventer true p0On)).broker.thresholds =
      some (1 + (P0.okOf (P0.NewEventer true p0On)).conf.sinks.countP
        (fun s => wants s EvType.error)) :=
  ⟨(claim1_error_threshold).1 true true ⟨true, true, true, []⟩ eAllOn rfl,
   (claim1_error_threshold).2 true p0On (P0.okOf (P0.NewEventer true p0On)) rfl⟩

theorem P0_mkEventer_pipelines (c : P0.Config) :
    (P0.mkEventer c).broker.pipelines =
      [⟨EvType.audit, "audit-pipeline", (P0.processSinks c.sinks
          ⟨[(0, Node.jsonFormatter)], [], [], 1, [], []⟩ [0] [0] [0]).2.1⟩,
       ⟨EvType.info, "info-pipeline", (P0.processSinks c.sinks
          ⟨[(0, Node.jsonFormatter)], [], [], 1, [], []⟩ [0] [0] [0]).2.2.1⟩,
       ⟨EvType.error, "err-pipeline", (P0.processSinks c.sinks
          ⟨[(0, Node.jsonFormatter)], [], [], 1, [], []⟩ [0] [0] [0]).2.2.2⟩] := rfl

theorem P0_mkEventer_thresholds (c : P0.Config) :
    (P0.mkEventer c).broker.thresholds =
      (if c.auditDelivery = Enforced then
        [(EvType.audit, (P0.processSinks c.sinks
          ⟨[(0, Node.jsonFormatter)], [], [], 1, [], []⟩ [0] [0] [0]).2.1.length)] else []) ++
      (if c.infoDelivery = Enforced then
        [(EvType.info, (P0.processSinks c.sinks
          ⟨[(0, Node.jsonFormatter)], [], [], 1, [], []⟩ [0] [0] [0]).2.2.1.length)] else []) ++
      [(EvType.error, (P0.processSinks c.sinks
          ⟨[(0, Node.jsonFormatter)], [], [], 1, [], []⟩ [0] [0] [0]).2.2.2.length)] := rfl

/-- Claim C5: in the part_000 `NewEventer`, an `Enforced` audit (resp.
info) delivery guarantee sets that type's success threshold to the number
of nodes subscribed to it — the length of the node-id chain of the
pipeline registered for that type (shared formatter plus subscribed
sinks) — while `BestEffort` leaves no threshold for that type; the Error
threshold is set unconditionally, in part_000 and in eventer.go alike. -/
theorem claim5_delivery_guarantee_thresholds :
    (∀ (hl : Bool) (c : P0.Config) (e' : P0.Eventer),
      P0.NewEventer hl c = .ok e' →
      (c.auditDelivery = Enforced →
        ∃ q ∈ e'.broker.pipelines, q.pipelineId = "audit-pipeline" ∧
          q.eventType = EvType.audit ∧
          lookupThreshold EvType.audit e'.broker.thresholds = some q.nodeIds.length) ∧
      (c.auditDelivery = BestEffort →
        lookupThreshold EvType.audit e'.broker.thresholds = none) ∧
      (c.infoDelivery = Enforced →
        ∃ q ∈ e'.broker.pipelines, q.pipelineId = "info-pipeline" ∧
          q.eventType = EvType.info ∧
          lookupThreshold EvType.info e'.broker.thresholds = some q.nodeIds.length) ∧
      (c.infoDelivery = BestEffort →
        lookupThreshold EvType.info e'.broker.thresholds = none) ∧
      (∃ n, lookupThreshold EvType.error e'.broker.thresholds = some n)) ∧
    (∀ (hl hlk : Bool) (c2 : EventerConfig) (e : EventerM),
      NewEventer hl hlk c2 = .ok e →
      ∃ n, lookupThreshold EvType.error e.broker.thresholds = some n) := by
  constructor
  · intro hl c e' h
    obtain rfl := P0_NewEventer_ok_inv hl c e' h
    obtain ⟨had, hid⟩ := P0_defaulted_deliveries c
    rw [P0_mkEventer_pipelines, P0_mkEventer_thresholds, had, hid]
    generalize P0.processSinks (P0.defaulted c).sinks
      ⟨[(0, Node.jsonFormatter)], [], [], 1, [], []⟩ [0] [0] [0] = r
    refine ⟨?_, ?_, ?_, ?_, ?_⟩
    · intro hEnf
      rw [if_pos hEnf]
      exact ⟨⟨EvType.audit, "audit-pipeline", r.2.1⟩, by simp, rfl, rfl,
        by simp [lookupThreshold]⟩
    · intro hBE
      have hne : ¬ c.auditDelivery = Enforced := by rw [hBE]; decide
      rw [if_neg hne]
      split_ifs <;> simp [lookupThreshold]
    · intro hEnf
      rw [if_pos hEnf]
      refine ⟨⟨EvType.info, "info-pipeline", r.2.2.1⟩, by simp, rfl, rfl, ?_⟩
      split_ifs <;> simp [lookupThreshold]
    · intro hBE
      have hne : ¬ c.infoDelivery = Enforced := by rw [hBE]; decide
      rw [if_neg hne]
      split_ifs <;> simp [lookupThreshold]
    · split_ifs <;> exact ⟨r.2.2.2.length, by simp [lookupThreshold]⟩
  · intro hl hlk c2 e h
    exact ⟨_, (NewEventer_error_threshold hl hlk c2 e h).2⟩

/-- Witness for C5 at a part_000 configuration with audit enforced and
info best-effort, plus the eventer.go default configuration. -/
theorem claim5_delivery_guarantee_thresholds_witness :
    (∃ q ∈ (P0.okOf (P0.NewEventer true p0Enf)).broker.pipelines,
      q.pipelineId = "audit-pipeline" ∧ q.eventType = EvType.audit ∧
      lookupThreshold EvType.audit
        (P0.okOf (P0.NewEventer true p0Enf)).broker.thresholds = some q.nodeIds.length) ∧
    lookupThreshold EvType.info
      (P0.okOf (P0.NewEventer true p0Enf)).broker.thresholds = none ∧
    (∃ n, lookupThreshold EvType.error
      (P0.okOf (P0.NewEventer true p0Enf)).broker.thresholds = some n) ∧
    (∃ n, lookupThreshold EvType.error eAllOn.broker.thresholds = some n) :=
  ⟨((claim5_delivery_guarantee_thresholds).1 true p0Enf
      (P0.okOf (P0.NewEventer true p0Enf)) rfl).1 rfl,
   ((claim5_delivery_guarantee_thresholds).1 true p0Enf
      (P0.okOf (P0.NewEventer true p0Enf)) rfl).2.2.2.1 rfl,
   ((claim5_delivery_guarantee_thresholds).1 true p0Enf
      (P0.okOf (P0.NewEventer true p0Enf)) rfl).2.2.2.2,
   (claim5_delivery_guarantee_thresholds).2 true true ⟨true, true, true, []⟩ eAllOn rfl⟩

theorem Node.isSink_ne_gated (nd : Node) (h : nd.isSink = true) :
    nd ≠ Node.gatedFilter := by
  cases nd <;> simp_all [Node.isSink]

theorem NewEventer_pipeline_shapes (hl hlk : Bool) (c : EventerConfig) (e : EventerM)
    (h : NewEventer hl hlk c = .ok e) :
    (∀ q ∈ e.broker.pipelines,
      ((q.eventType = EvType.audit ∨ q.eventType = EvType.observation) →
        GatedShape e.broker e.flushableNodes q) ∧
      ((q.eventType = EvType.error ∨ q.eventType = EvType.system) →
        PlainShape e.broker q)) ∧
    (e.broker.pipelines.filter
      (fun q => q.eventType = EvType.audit || q.eventType = EvType.observation)).map
      (fun q => q.nodeIds.head?) = e.flushableNodes.map some ∧
    e.flushableNodes.Nodup ∧
    e.flushableNodes.length =
      e.conf.sinks.countP (fun s => wants s EvType.audit) +
        e.conf.sinks.countP (fun s => wants s EvType.observation) := by
  obtain ⟨st1, ls, hps, rfl⟩ := NewEventer_ok_inv hl hlk c e h
  obtain ⟨psc, psp, pst, psf, ⟨snew, hsn, hsb⟩, ⟨A, hA, hAlen, hArec⟩,
    ⟨O, hO, hOlen, hOrec⟩, ⟨E, hE, hElen, hErec⟩, ⟨S, hS, hSlen, hSrec⟩⟩ :=
    processSinks_ok 0 (defaulted c).sinks buildInit ⟨[], [], [], []⟩ st1 ls hps
  simp only [List.nil_append] at hA hO hE hS
  obtain ⟨g1c, g1t, ⟨Gaud, hgA, hgbA⟩, ⟨Faud, Paud, hflA, hpiA, hflenA, hfordA,
    hfbndA, hmapA, hmaptyA, hqA⟩⟩ := gatedPhase_spec ls.audit st1
  obtain ⟨g2c, g2t, ⟨Gobs, hgO, hgbO⟩, ⟨Fobs, Pobs, hflO, hpiO, hflenO, hfordO,
    hfbndO, hmapO, hmaptyO, hqO⟩⟩ := gatedPhase_spec ls.obs (gatedPhase ls.audit st1)
  obtain ⟨-, p1n, -, p1f, -, ⟨Perr, hpi1, hpty1, hq1⟩⟩ :=
    plainPhase_spec ls.err (gatedPhase ls.obs (gatedPhase ls.audit st1))
  obtain ⟨-, p2n, -, p2f, -, ⟨Psys, hpi2, hpty2, hq2⟩⟩ :=
    plainPhase_spec ls.sys
      (plainPhase ls.err (gatedPhase ls.obs (gatedPhase ls.audit st1))).1
  have hb1 : buildInit.ctr = 1 := rfl
  have h1le : 1 ≤ st1.ctr := by omega
  have h12 : st1.ctr ≤ (gatedPhase ls.audit st1).ctr := by omega
  have hbn : buildInit.nodes = [(0, Node.jsonFormatter)] := rfl
  have hbf : buildInit.flush = [] := rfl
  have hbp : buildInit.pipes = [] := rfl
  have hsn1 : st1.nodes = (0, Node.jsonFormatter) :: snew := by
    rw [hsn, hbn]; rfl
  -- the final broker fields
  have hN : (finish st1 ls (defaulted c)).broker.nodes =
      (gatedPhase ls.obs (gatedPhase ls.audit st1)).nodes := by
    show (plainPhase ls.sys
        (plainPhase ls.err (gatedPhase ls.obs (gatedPhase ls.audit st1))).1).1.nodes = _
    rw [p2n, p1n]
  have hF : (finish st1 ls (defaulted c)).flushableNodes = Faud ++ Fobs := by
    show (plainPhase ls.sys
        (plainPhase ls.err (gatedPhase ls.obs (gatedPhase ls.audit st1))).1).1.flush = _
    rw [p2f, p1f, hflO, hflA, psf, hbf]
    simp
  have hP : (finish st1 ls (defaulted c)).broker.pipelines =
      Paud ++ Pobs ++ Perr ++ Psys := by
    show (plainPhase ls.sys
        (plainPhase ls.err (gatedPhase ls.obs (gatedPhase ls.audit st1))).1).1.pipes = _
    rw [hpi2, hpi1, hpiO, hpiA, psp, hbp]
    simp
  have hN3 : (gatedPhase ls.obs (gatedPhase ls.audit st1)).nodes =
      ((0, Node.jsonFormatter) :: snew) ++ Gaud ++ Gobs := by
    rw [hgO, hgA, hsn1]
  -- classification of node bindings in the final node table
  have hfmtMem : (0, Node.jsonFormatter) ∈
      (gatedPhase ls.obs (gatedPhase ls.audit st1)).nodes := by
    rw [hN3]; simp
  have hid0 : ∀ nd, (0, nd) ∈ (gatedPhase ls.obs (gatedPhase ls.audit st1)).nodes →
      nd = Node.jsonFormatter := by
    intro nd hmem
    rw [hN3] at hmem
    rcases List.mem_append.mp hmem with hmem | hmem
    · rcases List.mem_append.mp hmem with hmem | hmem
      · rcases List.mem_cons.mp hmem with heq | hmem
        · exact (Prod.mk.injEq _ _ _ _ |>.mp heq.symm).2.symm
        · obtain ⟨-, h2, -⟩ := hsb _ hmem
          simp [hb1] at h2
      · obtain ⟨-, h2, -⟩ := hgbA _ hmem
        omega
    · obtain ⟨-, h2, -⟩ := hgbO _ hmem
      omega
  have hsinkid : ∀ sid, 1 ≤ sid → sid < st1.ctr →
      ∀ nd, (sid, nd) ∈ (gatedPhase ls.obs (gatedPhase ls.audit st1)).nodes →
        nd.isSink = true := by
    intro sid hs1 hs2 nd hmem
    rw [hN3] at hmem
    rcases List.mem_append.mp hmem with hmem | hmem
    · rcases List.mem_append.mp hmem with hmem | hmem
      · rcases List.mem_cons.mp hmem with heq | hmem
        · have := (Prod.mk.injEq _ _ _ _ |>.mp heq).1
          omega
        · exact (hsb _ hmem).1
      · obtain ⟨-, h2, -⟩ := hgbA _ hmem
        omega
    · obtain ⟨-, h2, -⟩ := hgbO _ hmem
      omega
  have hgateid : ∀ g, st1.ctr ≤ g →
      ∀ nd, (g, nd) ∈ (gatedPhase ls.obs (gatedPhase ls.audit st1)).nodes →
        nd = Node.gatedFilter := by
    intro g hg nd hmem
    rw [hN3] at hmem
    rcases List.mem_append.mp hmem with hmem | hmem
    · rcases List.mem_append.mp hmem with hmem | hmem
      · rcases List.mem_cons.mp hmem with heq | hmem
        · have := (Prod.mk.injEq _ _ _ _ |>.mp heq).1
          omega
        · obtain ⟨-, h2, h3⟩ := hsb _ hmem
          simp at h3
          omega
      · exact (hgbA _ hmem).1
    · exact (hgbO _ hmem).1
  -- per-segment event types
  have hPaudTy : ∀ q ∈ Paud, q.eventType = EvType.audit := by
    intro q hq'
    obtain ⟨rec, hrec, g, e1, -, -, -, -⟩ := hqA q hq'
    rw [e1, (hArec rec (by rw [hA] at hrec; exact hrec)).1]
  have hPobsTy : ∀ q ∈ Pobs, q.eventType = EvType.observation := by
    intro q hq'
    obtain ⟨rec, hrec, g, e1, -, -, -, -⟩ := hqO q hq'
    rw [e1, (hOrec rec (by rw [hO] at hrec; exact hrec)).1]
  have hPerrTy : ∀ q ∈ Perr, q.eventType = EvType.error := by
    intro q hq'
    obtain ⟨rec, hrec, e1, -⟩ := hq1 q hq'
    rw [e1, (hErec rec (by rw [hE] at hrec; exact hrec)).1]
  have hPsysTy : ∀ q ∈ Psys, q.eventType = EvType.system := by
    intro q hq'
    obtain ⟨rec, hrec, e1, -⟩ := hq2 q hq'
    rw [e1, (hSrec rec (by rw [hS] at hrec; exact hrec)).1]
  -- gated shape for the audit and observation segments
  have hGaud : ∀ q ∈ Paud, GatedShape (finish st1 ls (defaulted c)).broker
      (finish st1 ls (defaulted c)).flushableNodes q := by
    intro q hq'
    obtain ⟨rec, hrec, g, e1, e2, e3, e4, e5⟩ := hqA q hq'
    obtain ⟨r1, r2, r3, r4, nd, hnd, hndS⟩ := hArec rec (by rw [hA] at hrec; exact hrec)
    have hndmem : (rec.sinkId, nd) ∈ (gatedPhase ls.obs (gatedPhase ls.audit st1)).nodes := by
      rw [hgO, hgA]
      exact List.mem_append_left _ (List.mem_append_left _ hnd)
    have hgmem : (g, Node.gatedFilter) ∈
        (gatedPhase ls.obs (gatedPhase ls.audit st1)).nodes := by
      rw [hgO]
      exact List.mem_append_left _ e3
    refine ⟨g, rec.sinkId, by rw [e2, r2], ?_, ?_, ?_, ?_, ?_, ?_, ?_⟩
    · rw [hN]; exact hgmem
    · rw [hN]; exact hgateid g e5
    · rw [hN]; exact hfmtMem
    · rw [hN]; exact hid0
    · rw [hN]; exact ⟨nd, hndmem, hndS⟩
    · rw [hN]
      exact hsinkid rec.sinkId (by rw [hb1] at r3; exact r3) r4
    · rw [hF]; exact List.mem_append_left _ e4
  have hGobs : ∀ q ∈ Pobs, GatedShape (finish st1 ls (defaulted c)).broker
      (finish st1 ls (defaulted c)).flushableNodes q := by
    intro q hq'
    obtain ⟨rec, hrec, g, e1, e2, e3, e4, e5⟩ := hqO q hq'
    obtain ⟨r1, r2, r3, r4, nd, hnd, hndS⟩ := hOrec rec (by rw [hO] at hrec; exact hrec)
    have hndmem : (rec.sinkId, nd) ∈ (gatedPhase ls.obs (gatedPhase ls.audit st1)).nodes := by
      rw [hgO, hgA]
      exact List.mem_append_left _ (List.mem_append_left _ hnd)
    refine ⟨g, rec.sinkId, by rw [e2, r2], ?_, ?_, ?_, ?_, ?_, ?_, ?_⟩
    · rw [hN]; exact e3
    · rw [hN]; exact hgateid g (by omega)
    · rw [hN]; exact hfmtMem
    · rw [hN]; exact hid0
    · rw [hN]; exact ⟨nd, hndmem, hndS⟩
    · rw [hN]
      exact hsinkid rec.sinkId (by rw [hb1] at r3; exact r3) r4
    · rw [hF]; exact List.mem_append_right _ e4
  -- plain shape for the error and system segments
  have hPerrShape : ∀ q ∈ Perr, PlainShape (finish st1 ls (defaulted c)).broker q := by
    intro q hq'
    obtain ⟨rec, hrec, e1, e2⟩ := hq1 q hq'
    obtain ⟨r1, r2, r3, r4, nd, hnd, hndS⟩ := hErec rec (by rw [hE] at hrec; exact hrec)
    have hndmem : (rec.sinkId, nd) ∈ (gatedPhase ls.obs (gatedPhase ls.audit st1)).nodes := by
      rw [hgO, hgA]
      exact List.mem_append_left _ (List.mem_append_left _ hnd)
    refine ⟨rec.sinkId, by rw [e2, r2], ?_, ?_, ?_, ?_⟩
    · rw [hN]; exact hfmtMem
    · rw [hN]; exact hid0
    · rw [hN]; exact ⟨nd, hndmem, hndS⟩
    · rw [hN]
      exact hsinkid rec.sinkId (by rw [hb1] at r3; exact r3) r4
  have hPsysShape : ∀ q ∈ Psys, PlainShape (finish st1 ls (defaulted c)).broker q := by
    intro q hq'
    obtain ⟨rec, hrec, e1, e2⟩ := hq2 q hq'
    obtain ⟨r1, r2, r3, r4, nd, hnd, hndS⟩ := hSrec rec (by rw [hS] at hrec; exact hrec)
    have hndmem : (rec.sinkId, nd) ∈ (gatedPhase ls.obs (gatedPhase ls.audit st1)).nodes := by
      rw [hgO, hgA]
      exact List.mem_append_left _ (List.mem_append_left _ hnd)
    refine ⟨rec.sinkId, by rw [e2, r2], ?_, ?_, ?_, ?_⟩
    · rw [hN]; exact hfmtMem
    · rw [hN]; exact hid0
    · rw [hN]; exact ⟨nd, hndmem, hndS⟩
    · rw [hN]
      exact hsinkid rec.sinkId (by rw [hb1] at r3; exact r3) r4
  refine ⟨?_, ?_, ?_, ?_⟩
  · intro q hq'
    rw [hP] at hq'
    rcases List.mem_append.mp hq' with hq' | hsys
    · rcases List.mem_append.mp hq' with hq' | herr
      · rcases List.mem_append.mp hq' with haud | hobs
        · refine ⟨fun _ => hGaud q haud, fun hty => ?_⟩
          rw [hPaudTy q haud] at hty
          rcases hty with hty | hty <;> simp at hty
        · refine ⟨fun _ => hGobs q hobs, fun hty => ?_⟩
          rw [hPobsTy q hobs] at hty
          rcases hty with hty | hty <;> simp at hty
      · refine ⟨fun hty => ?_, fun _ => hPerrShape q herr⟩
        rw [hPerrTy q herr] at hty
        rcases hty with hty | hty <;> simp at hty
    · refine ⟨fun hty => ?_, fun _ => hPsysShape q hsys⟩
      rw [hPsysTy q hsys] at hty
      rcases hty with hty | hty <;> simp at hty
  · rw [hP, hF]
    have hfa : Paud.filter
        (fun q => q.eventType = EvType.audit || q.eventType = EvType.observation) = Paud :=
      List.filter_eq_self.mpr (fun q hq' => by simp [hPaudTy q hq'])
    have hfo : Pobs.filter
        (fun q => q.eventType = EvType.audit || q.eventType = EvType.observation) = Pobs :=
      List.filter_eq_self.mpr (fun q hq' => by simp [hPobsTy q hq'])
    have hfe : Perr.filter
        (fun q => q.eventType = EvType.audit || q.eventType = EvType.observation) = [] :=
      List.filter_eq_nil_iff.mpr (fun q hq' => by simp [hPerrTy q hq'])
    have hfs : Psys.filter
        (fun q => q.eventType = EvType.audit || q.eventType = EvType.observation) = [] :=
      List.filter_eq_nil_iff.mpr (fun q hq' => by simp [hPsysTy q hq'])
    rw [List.filter_append, List.filter_append, List.filter_append,
      hfa, hfo, hfe, hfs, List.append_nil, List.append_nil, List.map_append,
      hmapA, hmapO, List.map_append]
  · rw [hF]
    have hpw : List.Pairwise (· < ·) (Faud ++ Fobs) :=
      List.pairwise_append.mpr ⟨hfordA, hfordO, fun a ha b hb => by
        have h1 := (hfbndA a ha).2
        have h2 := (hfbndO b hb).1
        omega⟩
    exact hpw.imp (fun hab => by omega)
  · rw [hF]
    have hconf : (finish st1 ls (defaulted c)).conf = defaulted c := rfl
    rw [hconf]
    simp only [List.length_append, hflenA, hflenO]
    rw [hA, hO, hAlen, hOlen]

theorem P0_no_gates (hl : Bool) (c : P0.Config) (e' : P0.Eventer)
    (h : P0.NewEventer hl c = .ok e') :
    (∀ x ∈ e'.broker.nodes, x.2 ≠ Node.gatedFilter) ∧
    (∀ q ∈ e'.broker.pipelines, q.nodeIds.head? = some 0) ∧
    (0, Node.jsonFormatter) ∈ e'.broker.nodes := by
  obtain rfl := P0_NewEventer_ok_inv hl c e' h
  obtain ⟨-, -, -, ⟨new, hn, hb⟩, ⟨A, hA⟩, ⟨I, hI⟩, ⟨E, hE⟩⟩ :=
    P0_processSinks_spec (P0.defaulted c).sinks
      ⟨[(0, Node.jsonFormatter)], [], [], 1, [], []⟩ [0] [0] [0]
  have hnodes : (P0.mkEventer (P0.defaulted c)).broker.nodes =
      (P0.processSinks (P0.defaulted c).sinks
        ⟨[(0, Node.jsonFormatter)], [], [], 1, [], []⟩ [0] [0] [0]).1.nodes := rfl
  refine ⟨?_, ?_, ?_⟩
  · intro x hx
    rw [hnodes, hn] at hx
    rcases List.mem_append.mp hx with hx | hx
    · rcases List.mem_cons.mp hx with rfl | hx
      · simp
      · simp at hx
    · exact Node.isSink_ne_gated x.2 (hb x hx).1
  · intro q hq
    rw [P0_mkEventer_pipelines] at hq
    rcases List.mem_cons.mp hq with rfl | hq
    · rw [hA.1]; rfl
    rcases List.mem_cons.mp hq with rfl | hq
    · rw [hI.1]; rfl
    rcases List.mem_cons.mp hq with rfl | hq
    · rw [hE.1]; rfl
    · simp at hq
  · rw [hnodes, hn]
    simp

/-- Claim C7, amended: every pipeline registered by eventer.go's
`NewEventer` for the Audit or Observation type has node chain exactly
[Gate, Formatter, Sink], with a fresh `gated.Filter` per subscribed sink
(the gates in the flushable-node list are pairwise distinct, one per
audit/observation pipeline), and every Error or System pipeline has node
chain exactly [Formatter, Sink] with no gate node; the part_000
`NewEventer` instead registers no gate node at all, and each of its
pipelines starts with the shared formatter (id 0) followed by the
subscribed sink ids. -/
theorem claim7_pipeline_shapes :
    (∀ (hl hlk : Bool) (c : EventerConfig) (e : EventerM),
      NewEventer hl hlk c = .ok e →
      (∀ q ∈ e.broker.pipelines,
        ((q.eventType = EvType.audit ∨ q.eventType = EvType.observation) →
          GatedShape e.broker e.flushableNodes q) ∧
        ((q.eventType = EvType.error ∨ q.eventType = EvType.system) →
          PlainShape e.broker q)) ∧
      (e.broker.pipelines.filter
        (fun q => q.eventType = EvType.audit || q.eventType = EvType.observation)).map
        (fun q => q.nodeIds.head?) = e.flushableNodes.map some ∧
      e.flushableNodes.Nodup ∧
      e.flushableNodes.length =
        e.conf.sinks.countP (fun s => wants s EvType.audit) +
          e.conf.sinks.countP (fun s => wants s EvType.observation)) ∧
    (∀ (hl : Bool) (c : P0.Config) (e' : P0.Eventer),
      P0.NewEventer hl c = .ok e' →
      (∀ x ∈ e'.broker.nodes, x.2 ≠ Node.gatedFilter) ∧
      (∀ q ∈ e'.broker.pipelines, q.nodeIds.head? = some 0) ∧
      (0, Node.jsonFormatter) ∈ e'.broker.nodes) :=
  ⟨NewEventer_pipeline_shapes, P0_no_gates⟩

/-- Claim C7, counterexample: the part_000 `NewEventer` registers an
audit pipeline whose node chain is [0, 1] — the shared formatter followed
by the sink, with no gate node anywhere in the broker — not the claimed
[Gate, Formatter, Sink]. -/
theorem claim7_pipeline_shapes_counterexample :
    (⟨EvType.audit, "audit-pipeline", [0, 1]⟩ : Pipeline) ∈
      (P0.okOf (P0.NewEventer true p0On)).broker.pipelines ∧
    (0, Node.jsonFormatter) ∈ (P0.okOf (P0.NewEventer true p0On)).broker.nodes ∧
    (∀ x ∈ (P0.okOf (P0.NewEventer true p0On)).broker.nodes,
      x.2 ≠ Node.gatedFilter) := by
  decide

/-- Witness for C7's amended theorem at the defaulted eventer.go
configuration. -/
theorem claim7_pipeline_shapes_witness :
    eAllOn.flushableNodes.Nodup ∧
    eAllOn.flushableNodes.length =
      eAllOn.conf.sinks.countP (fun s => wants s EvType.audit) +
        eAllOn.conf.sinks.countP (fun s => wants s EvType.observation) ∧
    (∀ x ∈ (P0.okOf (P0.NewEventer true p0On)).broker.nodes,
      x.2 ≠ Node.gatedFilter) :=
  ⟨((claim7_pipeline_shapes).1 true true ⟨true, true, true, []⟩ eAllOn rfl).2.2.1,
   ((claim7_pipeline_shapes).1 true true ⟨true, true, true, []⟩ eAllOn rfl).2.2.2,
   ((claim7_pipeline_shapes).2 true p0On (P0.okOf (P0.NewEventer true p0On)) rfl).1⟩

/-- Claim C8, amended: with zero configured sinks, construction does not
fail for lack of sinks; exactly one default sink subscribed to every event
type is installed and construction proceeds with it. In eventer.go the
default sink's destination is the console (stderr) stream; in the part_000
revision the default is a FILE sink with path "./" and filename "foo.txt",
not the console. -/
theorem claim8_default_sink :
    (∀ (ae oe se : Bool),
      ∃ e, NewEventer true true ⟨ae, oe, se, []⟩ = .ok e ∧
        e.conf.sinks = [DefaultSink] ∧
        DefaultSink.sinkType = StderrSink ∧
        DefaultSink.eventTypes = [EvType.every] ∧
        (1, Node.stderrSink JSONSinkFormat) ∈ e.broker.nodes ∧
        (∀ x ∈ e.broker.nodes, x.2.isSink = true →
          x = (1, Node.stderrSink JSONSinkFormat))) ∧
    (∀ (ad idv : String) (ae ie : Bool),
      ∃ e', P0.NewEventer true ⟨ad, idv, ae, ie, []⟩ = .ok e' ∧
        e'.conf.sinks = [P0.defaultSink] ∧
        P0.defaultSink.eventTypes = [EvType.every] ∧
        P0.defaultSink.path = "./" ∧ P0.defaultSink.fileName = "foo.txt" ∧
        (1, Node.fileSink JSONSinkFormat "./" "foo.txt" 0 0 0) ∈ e'.broker.nodes ∧
        (∀ x ∈ e'.broker.nodes, x.2.isSink = true →
          x = (1, Node.fileSink JSONSinkFormat "./" "foo.txt" 0 0 0))) := by
  constructor
  · intro ae oe se
    cases ae <;> cases oe <;> cases se <;> exact ⟨_, rfl, by decide⟩
  · intro ad idv ae ie
    have hn : (P0.mkEventer (P0.defaulted ⟨ad, idv, ae, ie, []⟩)).broker.nodes =
        [(0, Node.jsonFormatter),
         (1, Node.fileSink JSONSinkFormat "./" "foo.txt" 0 0 0)] := rfl
    refine ⟨_, rfl, rfl, rfl, rfl, rfl, ?_, ?_⟩
    · rw [hn]; decide
    · rw [hn]; decide

/-- Claim C8, counterexample: part_000's defaulted sink is a file sink
targeting ./foo.txt, and the resulting broker has no stderr sink node at
all — the claimed console (stderr) destination is false for part_000. -/
theorem claim8_default_sink_counterexample :
    (P0.okOf (P0.NewEventer true ⟨"", "", false, false, []⟩)).conf.sinks =
      [P0.defaultSink] ∧
    P0.defaultSink.sinkType ≠ StderrSink ∧
    (1, Node.fileSink JSONSinkFormat "./" "foo.txt" 0 0 0) ∈
      (P0.okOf (P0.NewEventer true ⟨"", "", false, false, []⟩)).broker.nodes ∧
    (∀ x ∈ (P0.okOf (P0.NewEventer true ⟨"", "", false, false, []⟩)).broker.nodes,
      x.2 ≠ Node.stderrSink JSONSinkFormat) := by
  decide

/-- Witness for C8's amended theorem at concrete flag values. -/
theorem claim8_default_sink_witness :
    (∃ e, NewEventer true true ⟨false, true, true, []⟩ = .ok e ∧
      e.conf.sinks = [DefaultSink] ∧
      DefaultSink.sinkType = StderrSink ∧
      DefaultSink.eventTypes = [EvType.every] ∧
      (1, Node.stderrSink JSONSinkFormat) ∈ e.broker.nodes ∧
      (∀ x ∈ e.broker.nodes, x.2.isSink = true →
        x = (1, Node.stderrSink JSONSinkFormat))) ∧
    (∃ e', P0.NewEventer true ⟨Enforced, BestEffort, true, true, []⟩ = .ok e' ∧
      e'.conf.sinks = [P0.defaultSink] ∧
      P0.defaultSink.eventTypes = [EvType.every] ∧
      P0.defaultSink.path = "./" ∧ P0.defaultSink.fileName = "foo.txt" ∧
      (1, Node.fileSink JSONSinkFormat "./" "foo.txt" 0 0 0) ∈ e'.broker.nodes ∧
      (∀ x ∈ e'.broker.nodes, x.2.isSink = true →
        x = (1, Node.fileSink JSONSinkFormat "./" "foo.txt" 0 0 0))) :=
  ⟨(claim8_default_sink).1 false true true,
   (claim8_default_sink).2 Enforced BestEffort true true⟩
